import Mathlib

/-!
# arxiv-explorer: the per-query enrichment pipeline

A shallow embedding of `pkg/models`, `pkg/db` and `pkg/arxiv` (function
`ProcessQuery`) together with the query loop of `cmd/main.go`.

* Go `string` values are Lean `String`s; the few `strings` functions the code
  uses are defined on the underlying character lists.
* The SQLite table `papers` is a list of rows of eleven TEXT columns.  What the
  engine does with the two statement shapes the code issues is described by
  `DB.Query` and `DB.Exec`.
* Everything the outside world decides during one `ProcessQuery` run (HTTP
  answer, engine failures, answer of the chat service to each enrichment
  request, goroutine interleaving) is collected in `QueryEnv`.
* Calls to collaborators are recorded in a trace of `Event`s, so statements
  such as "no enrichment call happens" are statements about that trace.
-/

namespace ArxivExplorer

/-! ## Go `strings` helpers -/

/-- Join with a separator on character lists (`strings.Join`). -/
def joinChars (sep : List Char) : List (List Char) → List Char
  | [] => []
  | [x] => x
  | x :: y :: rest => x ++ sep ++ joinChars sep (y :: rest)

/-- Split at every occurrence of the one-character separator. The result always
has one more piece than there are separators, so the empty input gives `[[]]`. -/
def splitChars (sep : Char) : List Char → List (List Char)
  | [] => [[]]
  | c :: cs =>
    if c = sep then [] :: splitChars sep cs
    else
      match splitChars sep cs with
      | [] => [[c]]
      | h :: t => (c :: h) :: t

/-- Go `strings.Join(elems, sep)`. -/
def stringsJoin (elems : List String) (sep : String) : String :=
  ⟨joinChars sep.data (elems.map String.data)⟩

/-- Go `strings.Split(s, sep)` for a separator of one character (the source
only ever splits on `","`). -/
def stringsSplit (s : String) (sep : Char) : List String :=
  (splitChars sep s.data).map String.mk

/-- Go `unicode.IsSpace`: the Latin-1 spaces and the code points with the
Unicode White_Space property. -/
def isSpace (c : Char) : Bool :=
  let n := c.toNat
  n = 0x09 || n = 0x0A || n = 0x0B || n = 0x0C || n = 0x0D || n = 0x20 ||
  n = 0x85 || n = 0xA0 || n = 0x1680 || (0x2000 ≤ n && n ≤ 0x200A) ||
  n = 0x2028 || n = 0x2029 || n = 0x202F || n = 0x205F || n = 0x3000

/-- Go `strings.TrimSpace(s)`: leading and trailing white space removed. -/
def stringsTrimSpace (s : String) : String :=
  ⟨List.rdropWhile isSpace (s.data.dropWhile isSpace)⟩

/-- Go `strings.Repeat(s, count)`. -/
def stringsRepeat (s : String) (count : Nat) : String :=
  ⟨(List.replicate count s.data).flatten⟩

/-- Go `strings.TrimRight(s, cutset)` for a cutset of one character. -/
def stringsTrimRight (s : String) (cut : Char) : String :=
  ⟨List.rdropWhile (fun c => c == cut) s.data⟩

/-! ## `pkg/models` and `pkg/gpt` data -/

structure Author where
  Name : String
  deriving DecidableEq, Repr

structure Link where
  Href : String
  Rel : String
  deriving DecidableEq, Repr

structure Entry where
  ID : String
  Title : String
  Summary : String
  Authors : List Author
  Published : String
  Categories : List String
  PDFLink : List Link
  GPTSummary : String
  GPTNewContributions : String
  GPTTags : List String
  deriving DecidableEq, Repr

structure Feed where
  Entries : List Entry
  deriving DecidableEq, Repr

set_option linter.dupNamespace false in
structure Query where
  ID : String
  Query : String
  deriving DecidableEq, Repr

structure GPTResponse where
  Summary : String
  NewContributions : String
  Tags : List String
  deriving DecidableEq, Repr

/-! ## Library functions and the storage engine -/

/-- A Go `time.Time` value; `Time.zero` is its zero value. -/
structure Time where
  unixNano : Int
  deriving DecidableEq, Repr

def Time.zero : Time := ⟨0⟩

/-- A value bound to a placeholder of an SQL statement. -/
inductive SqlValue where
  | text (s : String)
  | time (t : Time)
  deriving DecidableEq, Repr

/-- Deterministic functions of the Go standard library and of the SQLite driver
that the source calls and whose code is not part of the repository. -/
structure Lib where
  /-- Go `time.Parse(time.RFC3339, s)`; `none` when it reports an error. -/
  timeParse : String → Option Time
  /-- Text the driver stores for a bound `time.Time`. -/
  bindTime : Time → String
  /-- Text that `rows.Scan` puts into a `string` for a DATETIME column. -/
  scanDatetime : String → String
  /-- Comparison used by `ORDER BY publication_date DESC`: `dateGe a b` when
  `a` is to be listed no later than `b`. -/
  dateGe : String → String → Bool
  /-- Go `xml.Unmarshal` into a `models.Feed`. -/
  xmlUnmarshal : String → Except String Feed
  /-- Go `json.Marshal` of a string: the quoted and escaped text. -/
  jsonMarshal : String → Except String String
  /-- Go `json.Unmarshal` into a `gpt.GPTResponse`. -/
  jsonUnmarshal : String → Except String GPTResponse

/-- One row of table `papers` (all columns hold TEXT). -/
structure Row where
  paper_id : String
  title : String
  summary : String
  categories : String
  pdf_url : String
  authors : String
  publication_date : String
  query_id : String
  gpt_summary : String
  gpt_contributions : String
  gpt_tags : String
  deriving DecidableEq, Repr

/-- The database behind `*sql.DB`: the rows of table `papers`. -/
structure DB where
  papers : List Row
  deriving DecidableEq, Repr

/-- Identifiers held in storage. -/
def DB.ids (db : DB) : List String := db.papers.map Row.paper_id

/-- Text stored for a bound argument. -/
def SqlValue.stored (lib : Lib) : SqlValue → String
  | .text s => s
  | .time t => lib.bindTime t

/-- Number of `?` placeholders of a statement. -/
def countPlaceholders (query : String) : Nat := query.data.count '?'

/-- Rows described by the bound arguments of a multi-row insert: eleven
arguments per row; `none` when the arguments do not fill whole rows. -/
def rowsOfValues (lib : Lib) : List SqlValue → Option (List Row)
  | [] => some []
  | a :: b :: c :: d :: e :: f :: g :: h :: i :: j :: k :: rest =>
    match rowsOfValues lib rest with
    | none => none
    | some rows =>
      some (⟨a.stored lib, b.stored lib, c.stored lib, d.stored lib, e.stored lib, f.stored lib,
        g.stored lib, h.stored lib, i.stored lib, j.stored lib, k.stored lib⟩ :: rows)
  | _ => none

/-- Primary-key check: the identifiers are pairwise different and none is in
`taken`. -/
def freshKeys (taken : List String) : List String → Bool
  | [] => true
  | k :: ks => !(taken.contains k) && freshKeys (k :: taken) ks

/-- The engine executing `db.Query` for
`SELECT paper_id FROM papers WHERE paper_id IN (?,…,?)`: the `paper_id` of every
row whose key equals one of the arguments, in table order. `fault` is an error
reported by `db.Query` or `rows.Scan` for a reason of the engine's own (I/O,
closed connection); a wrong number of arguments is an error too. -/
def DB.Query (lib : Lib) (db : DB) (fault : Option String) (query : String)
    (args : List SqlValue) : Except String (List String) :=
  match fault with
  | some e => .error e
  | none =>
    if countPlaceholders query ≠ args.length then .error "sql: wrong number of arguments"
    else .ok (db.ids.filter (fun id => (args.map (SqlValue.stored lib)).contains id))

/-- The engine executing `db.Exec` for the multi-row
`INSERT INTO papers (…) VALUES (?,…,?),…`: one statement is one transaction, so
it either appends every row or, on any error (engine fault, wrong number of
arguments, primary-key collision), leaves the table as it was. -/
def DB.Exec (lib : Lib) (db : DB) (fault : Option String) (query : String)
    (args : List SqlValue) : Except String DB :=
  match fault with
  | some e => .error e
  | none =>
    if countPlaceholders query ≠ args.length then .error "sql: wrong number of arguments"
    else
      match rowsOfValues lib args with
      | none => .error "sql: incomplete row"
      | some rows =>
        if freshKeys db.ids (rows.map Row.paper_id) then .ok ⟨db.papers ++ rows⟩
        else .error "UNIQUE constraint failed: papers.paper_id"

/-- The engine executing
`SELECT … FROM papers ORDER BY publication_date DESC`. -/
def DB.QueryAll (lib : Lib) (db : DB) (fault : Option String) : Except String (List Row) :=
  match fault with
  | some e => .error e
  | none =>
    .ok (db.papers.insertionSort
      (fun a b => lib.dateGe a.publication_date b.publication_date = true))

/-! ## Calls to collaborators -/

/-- A call that leaves the pipeline, in the order the calls are made. -/
inductive Event where
  /-- Request `http.Get(url)` of `CallArxivAPI`. -/
  | httpGet (url : String)
  /-- Call `db.GetExistingPaperIDs(dbConn, paperIDs)`. -/
  | getExistingPaperIDs (paperIDs : List String)
  /-- Statement given to `db.Query`. -/
  | dbQuery (query : String) (args : List SqlValue)
  /-- Call `gpt.GetGPTInfoForPaper(apiKey, abstract)` made by the goroutine of
  feed entry number `index`. -/
  | gptCall (index : Nat) (apiKey : String) (abstract : String)
  /-- Call `db.SaveToDatabaseBatch(dbConn, entries, queryID)`. -/
  | saveToDatabaseBatch (entries : List Entry) (queryID : String)
  /-- Statement given to `db.Exec`. -/
  | dbExec (query : String) (args : List SqlValue)
  /-- Call `markdown.SaveEntriesToMarkdown(entries, …)` (the file name depends
  on the clock and is left out). -/
  | saveEntriesToMarkdown (entries : List Entry)
  /-- Call `log.Fatalf`, which ends the process. -/
  | logFatal (msg : String)
  /-- Run-time panic in a goroutine; nothing recovers it, so it ends the
  process. -/
  | panic (msg : String)
  deriving DecidableEq, Repr

/-! ## `pkg/db` -/

/-- Go `map[string]bool` whose values are all `true`, as its list of keys. -/
abbrev IDSet := List String

/-- Source `existingPapers[paperID] = true`. -/
def IDSet.set (m : IDSet) (paperID : String) : IDSet :=
  if m.contains paperID then m else m ++ [paperID]

/-- Source `db.GetExistingPaperIDs` (db.go 41-63): the map of the stored
identifiers among `paperIDs`, with the statement it sent. -/
def GetExistingPaperIDs (lib : Lib) (db : DB) (fault : Option String) (paperIDs : List String) :
    Except String IDSet × List Event :=
  let placeholders := stringsRepeat "?," paperIDs.length
  let placeholders := stringsTrimRight placeholders ','
  let query := "SELECT paper_id FROM papers WHERE paper_id IN (" ++ placeholders ++ ")"
  let args := paperIDs.map SqlValue.text
  match db.Query lib fault query args with
  | .error err => (.error err, [Event.dbQuery query args])
  | .ok rows => (.ok (rows.foldl IDSet.set []), [Event.dbQuery query args])

/-- Source `extractAuthors` (db.go 92-98). -/
def extractAuthors (authors : List Author) : String :=
  stringsJoin (authors.map Author.Name) ", "

/-- Source `parseAuthors` (db.go 126-133). -/
def parseAuthors (authorsStr : String) : List Author :=
  (stringsSplit authorsStr ',').map (fun part => ⟨stringsTrimSpace part⟩)

/-- The eleven values one entry contributes to the insert (db.go 78-86). -/
def entryValues (lib : Lib) (queryID : String) (entry : Entry) : List SqlValue :=
  let publicationDate := (lib.timeParse entry.Published).getD Time.zero
  let categories := stringsJoin entry.Categories ","
  let authors := extractAuthors entry.Authors
  let pdfURL := match entry.PDFLink with
    | [] => ""
    | l :: _ => l.Href
  let gptTags := stringsJoin entry.GPTTags ", "
  [.text entry.ID, .text entry.Title, .text entry.Summary, .text categories, .text pdfURL,
   .text authors, .time publicationDate, .text queryID, .text entry.GPTSummary,
   .text entry.GPTNewContributions, .text gptTags]

/-- The loop of `SaveToDatabaseBatch` (db.go 73-87) from entry number `i` on,
extending the statement text and the argument list. -/
def insertLoop (lib : Lib) (queryID : String) :
    Nat → List Entry → String → List SqlValue → String × List SqlValue
  | _, [], query, values => (query, values)
  | i, entry :: rest, query, values =>
    let query := if i > 0 then query ++ "," else query
    let query := query ++ "(?, ?, ?, ?, ?, ?, ?, ?, ?, ?, ?)"
    insertLoop lib queryID (i + 1) rest query (values ++ entryValues lib queryID entry)

/-- First part of the insert statement (db.go 70-71). -/
def insertHeader : String :=
  "INSERT INTO papers (paper_id, title, summary, categories, pdf_url, authors, publication_date, query_id, gpt_summary, gpt_contributions, gpt_tags)\n\t\t\t  VALUES "

/-- What a call of `SaveToDatabaseBatch` leaves behind. -/
structure SaveResult where
  /-- The returned `error`, `none` for `nil`. -/
  err : Option String
  db : DB
  /-- Statements sent to the engine. -/
  stmts : List Event
  deriving DecidableEq, Repr

/-- Source `db.SaveToDatabaseBatch` (db.go 66-90). -/
def SaveToDatabaseBatch (lib : Lib) (db : DB) (fault : Option String) (entries : List Entry)
    (queryID : String) : SaveResult :=
  if entries.length = 0 then ⟨none, db, []⟩
  else
    let (query, values) := insertLoop lib queryID 0 entries insertHeader []
    match db.Exec lib fault query values with
    | .error err => ⟨some err, db, [Event.dbExec query values]⟩
    | .ok db1 => ⟨none, db1, [Event.dbExec query values]⟩

/-- The body of the row loop of `FetchEntries` (db.go 109-123). -/
def scanEntry (lib : Lib) (row : Row) : Entry :=
  { ID := row.paper_id
    Title := row.title
    Summary := row.summary
    Authors := parseAuthors row.authors
    Published := lib.scanDatetime row.publication_date
    Categories := stringsSplit row.categories ','
    PDFLink := [⟨row.pdf_url, "alternate"⟩]
    GPTSummary := row.gpt_summary
    GPTNewContributions := row.gpt_contributions
    GPTTags := stringsSplit row.gpt_tags ',' }

/-- Source `db.FetchEntries` (db.go 101-124). -/
def FetchEntries (lib : Lib) (db : DB) (fault : Option String) : Except String (List Entry) :=
  match db.QueryAll lib fault with
  | .error err => .error err
  | .ok rows => .ok (rows.map (scanEntry lib))

/-! ## `pkg/arxiv` -/

/-- What the outside world decides while one query is processed. -/
structure QueryEnv where
  /-- Answer to `CallArxivAPI(url)`: the response body or an error. -/
  httpGet : String → Except String String
  /-- Engine failure met by the lookup statement, if any. -/
  queryFault : Option String
  /-- Answer to the `client.CreateChatCompletion` request made on behalf of feed
  entry number `i` with the given API key and user message: an error, or the
  message contents of `resp.Choices`, in order. -/
  createChatCompletion : Nat → String → String → Except String (List String)
  /-- Scheduler choices fixing the order in which the goroutines make their
  enrichment call. -/
  callOrder : List Nat
  /-- Scheduler choices fixing the order in which the channel hands the
  enriched entries to the collecting loop. -/
  recvOrder : List Nat
  /-- Engine failure met by the insert statement, if any. -/
  execFault : Option String

/-- Take element number `n` out of `x :: xs` (the last one when `n` is too
large): the element and the rest in their order. -/
def pickAt : Nat → α → List α → α × List α
  | 0, x, xs => (x, xs)
  | _ + 1, x, [] => (x, [])
  | n + 1, x, y :: ys =>
    let (z, rest) := pickAt n y ys
    (z, x :: rest)

/-- Order in which concurrently pending items come out: each scheduler choice
picks one of the items still pending; without choices left they come out in
their own order. Every interleaving is the result of some choices. -/
def schedule : List Nat → List α → List α
  | _, [] => []
  | [], xs => xs
  | c :: cs, x :: xs =>
    let (z, rest) := pickAt c x xs
    z :: schedule cs rest

/-- Source `ConstructArxivAPIURL` (arxiv.go 22-26). -/
def ConstructArxivAPIURL (query : String) : String :=
  let baseURL := "http://export.arxiv.org/api/query"
  let queryParam := "?search_query=" ++ query
  baseURL ++ queryParam

/-! ### `pkg/gpt` -/

/-- How a call of `gpt.GetGPTInfoForPaper` ends. -/
inductive GPTOutcome where
  /-- It returns a response and a `nil` error. -/
  | ok (response : GPTResponse)
  /-- It returns an error. -/
  | error (err : String)
  /-- It panics (index out of range) and never returns. -/
  | panic
  deriving DecidableEq, Repr

/-- Whether the call returned a response. -/
def GPTOutcome.isOk : GPTOutcome → Bool
  | .ok _ => true
  | _ => false

/-- Whether the call returned at all, with a response or with an error. -/
def GPTOutcome.returns : GPTOutcome → Bool
  | .panic => false
  | _ => true

/-- Source `escapeStringForJSON` (gpt.go 18-29). The text `json.Marshal` gives
starts and ends with a one-byte quote, so cutting the first and the last byte
is cutting the first and the last character. -/
def escapeStringForJSON (lib : Lib) (input : String) : Except String String :=
  match lib.jsonMarshal input with
  | .error err => .error err
  | .ok escaped =>
    if escaped.utf8ByteSize < 2 then .error "invalid escaped string"
    else .ok ⟨(escaped.data.drop 1).dropLast⟩

/-- Source `gpt.GetGPTInfoForPaper` (gpt.go 32-64), called on behalf of feed
entry number `index`. `resp.Choices[0]` (gpt.go 58) is read without a length
check, so an answer with no choice makes the call panic. -/
def GetGPTInfoForPaper (lib : Lib) (env : QueryEnv) (index : Nat) (apiKey abstract : String) :
    GPTOutcome :=
  match escapeStringForJSON lib abstract with
  | .error err => .error err
  | .ok friendlyAbstract =>
    match env.createChatCompletion index apiKey friendlyAbstract with
    | .error err => .error err
    | .ok choices =>
      match choices with
      | [] => .panic
      | content :: _ =>
        match lib.jsonUnmarshal content with
        | .error err => .error ("failed to unmarshal GPT response: " ++ err)
        | .ok gptResponse => .ok gptResponse

/-! ### `ProcessQuery` -/

/-- The run of the goroutine started for one feed entry (arxiv.go 101-116). -/
structure Goroutine where
  index : Nat
  entry : Entry
  /-- Whether it called `gpt.GetGPTInfoForPaper`. -/
  called : Bool
  /-- The entry it sent on channel `enrichedEntries`, if any. -/
  sent : Option Entry
  /-- Whether its call panicked. -/
  panicked : Bool
  deriving DecidableEq, Repr

/-- Body of the goroutine (arxiv.go 102-115). -/
def runGoroutine (lib : Lib) (env : QueryEnv) (openAIKey : String) (existingPapers : IDSet)
    (index : Nat) (entry : Entry) : Goroutine :=
  if existingPapers.contains entry.ID then ⟨index, entry, false, none, false⟩
  else
    match GetGPTInfoForPaper lib env index openAIKey entry.Summary with
    | .panic => ⟨index, entry, true, none, true⟩
    | .error _ => ⟨index, entry, true, none, false⟩
    | .ok gptResponse =>
      ⟨index, entry, true,
        some { entry with
          GPTSummary := gptResponse.Summary
          GPTNewContributions := gptResponse.NewContributions
          GPTTags := gptResponse.Tags }, false⟩

/-- The goroutines started by the loop over `feed.Entries` (arxiv.go 99-117),
the first one for entry number `i`. -/
def spawn (lib : Lib) (env : QueryEnv) (openAIKey : String) (existingPapers : IDSet) :
    Nat → List Entry → List Goroutine
  | _, [] => []
  | i, entry :: rest =>
    runGoroutine lib env openAIKey existingPapers i entry ::
      spawn lib env openAIKey existingPapers (i + 1) rest

/-- Enrichment calls made by the goroutines, in the order the scheduler fixes.
Every goroutine of an entry that is not known makes its call as soon as it
runs; the trace lists all these calls, also in a run that a panic ends (the
panic comes only after the answer to one of the requests has arrived). -/
def gptEvents (env : QueryEnv) (openAIKey : String) (gs : List Goroutine) : List Event :=
  (schedule env.callOrder (gs.filter Goroutine.called)).map
    (fun g => Event.gptCall g.index openAIKey g.entry.Summary)

/-- Collecting loop `for entry := range enrichedEntries` (arxiv.go 122-124):
the entries sent on the channel, in the order they are received. The loop ends
when the channel is closed, which happens after `wg.Wait()` (arxiv.go 118-121);
the model takes this barrier for granted, so every entry sent is received. -/
def collect (env : QueryEnv) (gs : List Goroutine) : List Entry :=
  schedule env.recvOrder (gs.filterMap Goroutine.sent)

/-- Result of processing one query. -/
structure ProcResult where
  db : DB
  /-- Calls made, in order. -/
  trace : List Event
  /-- Whether `log.Fatalf` or a panic ended the process. -/
  exited : Bool
  /-- Error returned by `SaveToDatabaseBatch` (variable `err` after arxiv.go
  126); `none` for `nil` and when the call was not reached. -/
  saveErr : Option String
  deriving DecidableEq, Repr

/-- Result of the query loop. -/
structure LoopResult where
  db : DB
  /-- Calls made, in order. -/
  trace : List Event
  /-- Whether `log.Fatalf` or a panic ended the process. -/
  exited : Bool
  deriving DecidableEq, Repr

/-- Source `arxiv.ProcessQuery` (arxiv.go 68-140). A panic in one of the
goroutines ends the process before the collecting loop is over, so nothing is
saved. Log output other than the fatal exit is not part of the model. -/
def ProcessQuery (lib : Lib) (env : QueryEnv) (dbConn : DB) (query : Query) (openAIKey : String) :
    ProcResult :=
  let url := ConstructArxivAPIURL query.Query
  match env.httpGet url with
  | .error err =>
    ⟨dbConn, [.httpGet url, .logFatal ("Failed to call ArXiv API: " ++ err)], true, none⟩
  | .ok data =>
    match lib.xmlUnmarshal data with
    | .error err =>
      ⟨dbConn, [.httpGet url, .logFatal ("Failed to parse XML response: " ++ err)], true, none⟩
    | .ok feed =>
      let paperIDs := feed.Entries.map Entry.ID
      if paperIDs.length = 0 then ⟨dbConn, [.httpGet url], false, none⟩
      else
        match GetExistingPaperIDs lib dbConn env.queryFault paperIDs with
        | (.error err, stmts) =>
          ⟨dbConn, [.httpGet url, .getExistingPaperIDs paperIDs] ++ stmts ++
            [.logFatal ("Failed to check existing papers: " ++ err)], true, none⟩
        | (.ok existingPapers, stmts) =>
          let gs := spawn lib env openAIKey existingPapers 0 feed.Entries
          if gs.any Goroutine.panicked then
            ⟨dbConn, [.httpGet url, .getExistingPaperIDs paperIDs] ++ stmts ++
              gptEvents env openAIKey gs ++
              [.panic "runtime error: index out of range [0] with length 0"], true, none⟩
          else
            let newEntries := collect env gs
            let saved := SaveToDatabaseBatch lib dbConn env.execFault newEntries query.ID
            let trace := [.httpGet url, .getExistingPaperIDs paperIDs] ++ stmts ++
              gptEvents env openAIKey gs ++ [.saveToDatabaseBatch newEntries query.ID] ++
              saved.stmts
            if newEntries.length = 0 then ⟨saved.db, trace, false, saved.err⟩
            else ⟨saved.db, trace ++ [.saveEntriesToMarkdown newEntries], false, saved.err⟩

/-- The query loop of `main` (main.go 45-47): the queries are processed in
order, each with what the outside world does during its turn; a fatal exit or
a panic ends the process, so the queries after it are not started. -/
def processQueries (lib : Lib) (openAIKey : String) : DB → List (Query × QueryEnv) → LoopResult
  | db, [] => ⟨db, [], false⟩
  | db, (query, env) :: rest =>
    let r := ProcessQuery lib env db query openAIKey
    if r.exited then ⟨r.db, r.trace, true⟩
    else
      let r2 := processQueries lib openAIKey r.db rest
      ⟨r2.db, r.trace ++ r2.trace, r2.exited⟩

/-! ## Reading a trace -/

/-- Feed entry numbers for which the enrichment service was called. -/
def gptCalls : List Event → List Nat
  | [] => []
  | .gptCall i _ _ :: rest => i :: gptCalls rest
  | _ :: rest => gptCalls rest

/-- Batches handed to `SaveToDatabaseBatch`, each with its query identifier. -/
def saveCalls : List Event → List (List Entry × String)
  | [] => []
  | .saveToDatabaseBatch entries queryID :: rest => (entries, queryID) :: saveCalls rest
  | _ :: rest => saveCalls rest

/-- Identifier lists handed to `GetExistingPaperIDs`. -/
def lookupCalls : List Event → List (List String)
  | [] => []
  | .getExistingPaperIDs paperIDs :: rest => paperIDs :: lookupCalls rest
  | _ :: rest => lookupCalls rest

/-- Statements handed to `db.Exec`. -/
def execCalls : List Event → List (String × List SqlValue)
  | [] => []
  | .dbExec query args :: rest => (query, args) :: execCalls rest
  | _ :: rest => execCalls rest

/-! ## Notions used in the statements -/

/-- No white space (`unicode.IsSpace`) at either end of `s`. -/
def noEdgeSpace (s : String) : Bool :=
  (match s.data.head? with
   | some c => !isSpace c
   | none => true) &&
  (match s.data.getLast? with
   | some c => !isSpace c
   | none => true)

/-- Text of the lookup statement for `n` identifiers. -/
def lookupText (n : Nat) : String :=
  "SELECT paper_id FROM papers WHERE paper_id IN (" ++
    stringsTrimRight (stringsRepeat "?," n) ',' ++ ")"

/-- Set that `GetExistingPaperIDs` builds when the engine answers. -/
def existingOf (db : DB) (paperIDs : List String) : IDSet :=
  (db.ids.filter (fun id => paperIDs.contains id)).foldl IDSet.set []

/-- Row that the insert stores for one entry. -/
def entryRow (lib : Lib) (queryID : String) (entry : Entry) : Row :=
  { paper_id := entry.ID
    title := entry.Title
    summary := entry.Summary
    categories := stringsJoin entry.Categories ","
    pdf_url := match entry.PDFLink with
      | [] => ""
      | l :: _ => l.Href
    authors := extractAuthors entry.Authors
    publication_date := lib.bindTime ((lib.timeParse entry.Published).getD Time.zero)
    query_id := queryID
    gpt_summary := entry.GPTSummary
    gpt_contributions := entry.GPTNewContributions
    gpt_tags := stringsJoin entry.GPTTags ", " }

/-- One group of eleven placeholders. -/
def insertGroup : String := "(?, ?, ?, ?, ?, ?, ?, ?, ?, ?, ?)"

/-- Text of the insert statement for `n + 1` entries. -/
def insertText (n : Nat) : String :=
  insertHeader ++ stringsJoin (List.replicate (n + 1) insertGroup) ","

/-- The numbered feed entries whose identifier is not in `known`. -/
def unknownEntries (known : List String) (start : Nat) (entries : List Entry) : List (Nat × Entry) :=
  (entries.enumFrom start).filter (fun p => !known.contains p.2.ID)

/-- How the enrichment call made for a numbered feed entry ends. -/
def enrichment (lib : Lib) (env : QueryEnv) (openAIKey : String) (p : Nat × Entry) : GPTOutcome :=
  GetGPTInfoForPaper lib env p.1 openAIKey p.2.Summary

/-- The entry that the goroutine of a numbered feed entry sends on the channel:
the entry with the fields of the enrichment answer, nothing when the call does
not return a response. -/
def enriched (lib : Lib) (env : QueryEnv) (openAIKey : String) (p : Nat × Entry) : Option Entry :=
  match enrichment lib env openAIKey p with
  | .ok r =>
    some { p.2 with GPTSummary := r.Summary, GPTNewContributions := r.NewContributions, GPTTags := r.Tags }
  | _ => none

/-- Sample entry with identifier `id` and all other fields empty. -/
def Sample.entry (id : String) : Entry := ⟨id, "", "", [], "", [], [], "", "", []⟩

/-- Sample library: the response body is the comma-separated list of the
identifiers of the feed (the empty body is the empty feed); an enrichment
answer is the text of its single tag. -/
def Sample.lib : Lib :=
  { timeParse := fun _ => none
    bindTime := fun _ => ""
    scanDatetime := fun s => s
    dateGe := fun _ _ => true
    xmlUnmarshal := fun data =>
      if data = "" then .ok ⟨[]⟩ else .ok ⟨(stringsSplit data ',').map Sample.entry⟩
    jsonMarshal := fun s =>
      .ok (String.singleton (Char.ofNat 34) ++ s ++ String.singleton (Char.ofNat 34))
    jsonUnmarshal := fun content =>
      if content = "" then .error "unexpected end of JSON input" else .ok ⟨"s", "c", [content]⟩ }

/-- Sample outside world: the search answers with `body`, the lookup meets
`queryFault`, every enrichment request is answered with one choice or every one
fails, the scheduler lets the second pending goroutine go first, and the insert
meets no engine failure. -/
def Sample.env (body : String) (queryFault : Option String) (gptOk : Bool) : QueryEnv :=
  { httpGet := fun _ => .ok body
    queryFault := queryFault
    createChatCompletion := fun _ _ _ => if gptOk then .ok ["t"] else .error "timeout"
    callOrder := [1]
    recvOrder := [1]
    execFault := none }

/-- Sample outside world in which the chat service answers the request made for
the first feed entry with an empty list of choices and every other request with
one choice. -/
def Sample.envNoChoice (body : String) : QueryEnv :=
  { Sample.env body none true with
    createChatCompletion := fun i _ _ => if i = 0 then .ok [] else .ok ["t"] }

/-- Sample storage holding one row for each of the identifiers. -/
def Sample.stored (ids : List String) : DB :=
  ⟨ids.map (fun id => entryRow Sample.lib "q0" (Sample.entry id))⟩

/-! ## Strings -/

theorem splitChars_append_sep (sep : Char) (p : List Char) (hp : sep ∉ p) (l : List Char) :
    splitChars sep (p ++ sep :: l) = p :: splitChars sep l := by
  induction p with
  | nil => simp [splitChars]
  | cons c cs ih =>
    have hc : c ≠ sep := fun h => hp (by simp [h])
    have hcs : sep ∉ cs := fun h => hp (by simp [h])
    simp [splitChars, hc, ih hcs]

theorem splitChars_of_not_mem (sep : Char) (p : List Char) (hp : sep ∉ p) :
    splitChars sep p = [p] := by
  induction p with
  | nil => simp [splitChars]
  | cons c cs ih =>
    have hc : c ≠ sep := fun h => hp (by simp [h])
    have hcs : sep ∉ cs := fun h => hp (by simp [h])
    simp [splitChars, hc, ih hcs]

/-- Splitting on `,` what was joined with `, `: the first piece comes back
unchanged, every later piece with a space in front. -/
theorem splitChars_joinChars (x : List Char) (rest : List (List Char))
    (h : ∀ y ∈ x :: rest, ',' ∉ y) :
    splitChars ',' (joinChars [',', ' '] (x :: rest)) = x :: rest.map (fun y => ' ' :: y) := by
  induction rest generalizing x with
  | nil => simpa [joinChars] using splitChars_of_not_mem ',' x (h x (by simp))
  | cons y ys ih =>
    have hx : ',' ∉ x := h x (by simp)
    have hy : ∀ z ∈ y :: ys, ',' ∉ z := fun z hz => h z (by simp [List.mem_cons] at hz ⊢; tauto)
    have key := ih y hy
    have hsp : splitChars ',' (' ' :: joinChars [',', ' '] (y :: ys))
        = (' ' :: y) :: ys.map (fun y => ' ' :: y) := by
      rw [splitChars]
      simp [key]
    simp only [joinChars, List.append_assoc, List.cons_append, List.nil_append, List.map_cons]
    rw [splitChars_append_sep ',' x hx, hsp]

theorem trim_of_noEdgeSpace (l : List Char) (h : noEdgeSpace ⟨l⟩ = true) :
    List.rdropWhile isSpace (l.dropWhile isSpace) = l := by
  cases l with
  | nil => simp
  | cons c cs =>
    simp only [noEdgeSpace, List.head?_cons, Bool.and_eq_true, Bool.not_eq_true'] at h
    obtain ⟨h1, h2⟩ := h
    have hd : (c :: cs).dropWhile isSpace = c :: cs := by simp [List.dropWhile, h1]
    rw [hd, List.rdropWhile_eq_self_iff]
    intro hl
    rw [List.getLast?_eq_getLast _ hl] at h2
    simpa using h2

theorem trim_space_cons (l : List Char) (h : noEdgeSpace ⟨l⟩ = true) :
    List.rdropWhile isSpace ((' ' :: l).dropWhile isSpace) = l := by
  have hs : isSpace ' ' = true := by decide
  rw [List.dropWhile_cons, if_pos hs]
  exact trim_of_noEdgeSpace l h

theorem stringsTrimSpace_self (s : String) (h : noEdgeSpace s = true) :
    stringsTrimSpace s = s := by
  have e := trim_of_noEdgeSpace s.data h
  simp only [stringsTrimSpace, e]

theorem stringsTrimSpace_spaced (s : String) (h : noEdgeSpace s = true) :
    stringsTrimSpace ⟨' ' :: s.data⟩ = s := by
  have e := trim_space_cons s.data h
  simp only [stringsTrimSpace, e]

/-- C9. Author serialisation round trip: for a non-empty list of authors whose
names hold no comma and have no white space at either end,
`parseAuthors (extractAuthors authors)` is the list itself; for the empty list
it is the one-element list holding the author with the empty name. -/
theorem parseAuthors_extractAuthors (authors : List Author)
    (hcomma : ∀ a ∈ authors, ',' ∉ a.Name.data)
    (hspace : ∀ a ∈ authors, noEdgeSpace a.Name = true) :
    (authors ≠ [] → parseAuthors (extractAuthors authors) = authors) ∧
    parseAuthors (extractAuthors []) = [⟨""⟩] := by
  refine ⟨fun hne => ?_, by decide⟩
  cases authors with
  | nil => exact absurd rfl hne
  | cons a rest =>
    have hsplit := splitChars_joinChars a.Name.data ((rest.map Author.Name).map String.data)
      (by
        intro y hy
        simp only [List.mem_cons, List.mem_map] at hy
        rcases hy with rfl | ⟨n, ⟨b, hb, rfl⟩, rfl⟩
        · exact hcomma a (by simp)
        · exact hcomma b (by simp [hb]))
    have hunfold : parseAuthors (extractAuthors (a :: rest)) =
        ((splitChars ',' (joinChars [',', ' ']
          (a.Name.data :: (rest.map Author.Name).map String.data))).map String.mk).map
          (fun part => (⟨stringsTrimSpace part⟩ : Author)) := rfl
    rw [hunfold, hsplit]
    simp only [List.map_cons, List.map_map]
    have hhead : stringsTrimSpace ⟨a.Name.data⟩ = a.Name :=
      stringsTrimSpace_self a.Name (hspace a (by simp))
    rw [hhead]
    refine congrArg (List.cons a) ?_
    conv_rhs => rw [← List.map_id rest]
    apply List.map_congr_left
    intro b hb
    simp only [Function.comp_apply, id_eq]
    rw [stringsTrimSpace_spaced b.Name (hspace b (by simp [hb]))]

/-- Witness for C9: three authors, one of them with the empty name. -/
theorem parseAuthors_extractAuthors_witness :
    parseAuthors (extractAuthors [⟨"Ada L"⟩, ⟨""⟩, ⟨"Bo"⟩]) = [⟨"Ada L"⟩, ⟨""⟩, ⟨"Bo"⟩] :=
  (parseAuthors_extractAuthors [⟨"Ada L"⟩, ⟨""⟩, ⟨"Bo"⟩] (by decide) (by decide)).1 (by decide)

/-! ## The lookup -/

theorem count_repeat_placeholder (n : Nat) :
    (List.replicate n ['?', ',']).flatten.count '?' = n := by
  induction n with
  | zero => rfl
  | succ k ih =>
    rw [List.replicate_succ, List.flatten_cons, List.count_append, ih]
    have : List.count '?' ['?', ','] = 1 := by decide
    omega

theorem count_rdropWhile_comma (l : List Char) :
    (List.rdropWhile (fun c => c == ',') l).count '?' = l.count '?' := by
  induction l using List.reverseRecOn with
  | nil => rfl
  | append_singleton l a ih =>
    rw [List.rdropWhile_concat]
    split
    · rename_i h
      have ha : a = ',' := by simpa using h
      subst ha
      rw [ih, List.count_append]
      have : List.count '?' [','] = 0 := by decide
      omega
    · rfl

/-- The lookup statement has one placeholder per identifier. -/
theorem countPlaceholders_lookup (n : Nat) :
    countPlaceholders ("SELECT paper_id FROM papers WHERE paper_id IN (" ++
      stringsTrimRight (stringsRepeat "?," n) ',' ++ ")") = n := by
  have h1 : List.count '?' ("SELECT paper_id FROM papers WHERE paper_id IN (" : String).data = 0 := by
    decide
  have h2 : List.count '?' (")" : String).data = 0 := by decide
  have h3 : ("?," : String).data = ['?', ','] := rfl
  simp only [countPlaceholders, String.data_append, List.count_append, h1, h2, stringsTrimRight,
    stringsRepeat, h3, count_rdropWhile_comma, count_repeat_placeholder]
  omega

theorem mem_foldl_set (rows : List String) (acc : IDSet) (id : String) :
    id ∈ rows.foldl IDSet.set acc ↔ id ∈ acc ∨ id ∈ rows := by
  induction rows generalizing acc with
  | nil => simp
  | cons r rs ih =>
    rw [List.foldl_cons, ih]
    unfold IDSet.set
    split
    · rename_i h
      have hr : r ∈ acc := by simpa using h
      constructor
      · rintro (h | h)
        · exact Or.inl h
        · exact Or.inr (List.mem_cons_of_mem _ h)
      · rintro (h | h)
        · exact Or.inl h
        · rcases List.mem_cons.1 h with rfl | h
          · exact Or.inl hr
          · exact Or.inr h
    · simp only [List.mem_append, List.mem_singleton, List.mem_cons]
      tauto

theorem mem_existingOf (db : DB) (paperIDs : List String) (id : String) :
    id ∈ existingOf db paperIDs ↔ id ∈ paperIDs ∧ id ∈ db.ids := by
  simp [existingOf, mem_foldl_set, List.mem_filter, and_comm]

theorem GetExistingPaperIDs_none (lib : Lib) (db : DB) (paperIDs : List String) :
    GetExistingPaperIDs lib db none paperIDs =
      (.ok (existingOf db paperIDs),
        [Event.dbQuery (lookupText paperIDs.length) (paperIDs.map SqlValue.text)]) := by
  have hargs : (paperIDs.map SqlValue.text).map (SqlValue.stored lib) = paperIDs := by
    simp [Function.comp_def, SqlValue.stored]
  simp only [GetExistingPaperIDs, DB.Query, countPlaceholders_lookup, List.length_map,
    ne_eq, not_true_eq_false, if_false, hargs, existingOf, lookupText]

theorem GetExistingPaperIDs_some (lib : Lib) (db : DB) (e : String) (paperIDs : List String) :
    GetExistingPaperIDs lib db (some e) paperIDs =
      (.error e, [Event.dbQuery (lookupText paperIDs.length) (paperIDs.map SqlValue.text)]) := by
  simp only [GetExistingPaperIDs, DB.Query, lookupText]

/-! ## The batch insert -/

theorem insertLoop_snd (lib : Lib) (queryID : String) (i : Nat) (entries : List Entry)
    (query : String) (values : List SqlValue) :
    (insertLoop lib queryID i entries query values).2 =
      values ++ entries.flatMap (entryValues lib queryID) := by
  induction entries generalizing i query values with
  | nil => simp [insertLoop]
  | cons e es ih => simp [insertLoop, ih, List.flatMap_cons]

theorem insertLoop_fst_pos (lib : Lib) (queryID : String) (i : Nat) (entries : List Entry)
    (query : String) (values : List SqlValue) :
    (insertLoop lib queryID (i + 1) entries query values).1.data =
      query.data ++ (List.replicate entries.length (',' :: insertGroup.data)).flatten := by
  induction entries generalizing i query values with
  | nil => simp [insertLoop]
  | cons e es ih =>
    have hc : ("," : String).data = [','] := rfl
    simp [insertLoop, ih, List.replicate_succ, hc, insertGroup]

theorem joinChars_replicate (g : List Char) (n : Nat) :
    joinChars [','] (List.replicate (n + 1) g) = g ++ (List.replicate n (',' :: g)).flatten := by
  induction n with
  | zero => simp [joinChars]
  | succ k ih =>
    rw [List.replicate_succ, List.replicate_succ, joinChars, ← List.replicate_succ, ih]
    simp [List.replicate_succ]

theorem insertLoop_fst (lib : Lib) (queryID : String) (e : Entry) (rest : List Entry) :
    (insertLoop lib queryID 0 (e :: rest) insertHeader []).1 = insertText rest.length := by
  apply String.ext
  have hc : ("," : String).data = [','] := rfl
  have hj := joinChars_replicate insertGroup.data rest.length
  simp only [insertLoop, insertText, stringsJoin, List.map_replicate, hc, hj, String.data_append,
    insertLoop_fst_pos, gt_iff_lt, lt_self_iff_false, if_false, zero_add, List.append_assoc]
  rfl


theorem count_groups (n : Nat) :
    (List.replicate n (',' :: insertGroup.data)).flatten.count '?' = 11 * n := by
  induction n with
  | zero => rfl
  | succ k ih =>
    rw [List.replicate_succ, List.flatten_cons, List.count_append, ih]
    have : List.count '?' (',' :: insertGroup.data) = 11 := by decide
    omega

/-- The insert statement has eleven placeholders per entry. -/
theorem countPlaceholders_insertText (n : Nat) :
    countPlaceholders (insertText n) = 11 * (n + 1) := by
  have hc : ("," : String).data = [','] := rfl
  have h1 : List.count '?' insertHeader.data = 0 := by decide
  have h2 : List.count '?' insertGroup.data = 11 := by decide
  simp only [countPlaceholders, insertText, stringsJoin, List.map_replicate, hc,
    joinChars_replicate, String.data_append, List.count_append, h1, h2, count_groups]
  omega

theorem entryValues_length (lib : Lib) (queryID : String) (entry : Entry) :
    (entryValues lib queryID entry).length = 11 := rfl

theorem length_flatMap_entryValues (lib : Lib) (queryID : String) (entries : List Entry) :
    (entries.flatMap (entryValues lib queryID)).length = 11 * entries.length := by
  induction entries with
  | nil => rfl
  | cons e es ih =>
    rw [List.flatMap_cons, List.length_append, ih, entryValues_length, List.length_cons]
    omega

theorem rowsOfValues_flatMap (lib : Lib) (queryID : String) (entries : List Entry) :
    rowsOfValues lib (entries.flatMap (entryValues lib queryID)) =
      some (entries.map (entryRow lib queryID)) := by
  induction entries with
  | nil => rfl
  | cons e es ih =>
    rw [List.flatMap_cons]
    simp only [entryValues, List.cons_append, List.nil_append, rowsOfValues, List.append_eq, ih,
      List.map_cons, entryRow, SqlValue.stored]

theorem ids_map_entryRow (lib : Lib) (queryID : String) (entries : List Entry) :
    (entries.map (entryRow lib queryID)).map Row.paper_id = entries.map Entry.ID := by
  simp [Function.comp_def, entryRow]

/-- What `SaveToDatabaseBatch` does with a non-empty batch: one insert statement
for all entries, whose outcome is the outcome of the call. -/
theorem SaveToDatabaseBatch_cons (lib : Lib) (db : DB) (fault : Option String) (e : Entry)
    (rest : List Entry) (queryID : String) :
    SaveToDatabaseBatch lib db fault (e :: rest) queryID =
      let stmt := Event.dbExec (insertText rest.length)
        ((e :: rest).flatMap (entryValues lib queryID))
      match fault with
      | some err => ⟨some err, db, [stmt]⟩
      | none =>
        if freshKeys db.ids ((e :: rest).map Entry.ID) then
          ⟨none, ⟨db.papers ++ (e :: rest).map (entryRow lib queryID)⟩, [stmt]⟩
        else ⟨some "UNIQUE constraint failed: papers.paper_id", db, [stmt]⟩ := by
  have h1 := insertLoop_fst lib queryID e rest
  have h2 := insertLoop_snd lib queryID 0 (e :: rest) insertHeader []
  rw [List.nil_append] at h2
  have hlen := length_flatMap_entryValues lib queryID (e :: rest)
  have hrows := rowsOfValues_flatMap lib queryID (e :: rest)
  have hids := ids_map_entryRow lib queryID (e :: rest)
  have hpair : insertLoop lib queryID 0 (e :: rest) insertHeader [] =
      (insertText rest.length, (e :: rest).flatMap (entryValues lib queryID)) :=
    Prod.ext h1 h2
  unfold SaveToDatabaseBatch
  rw [if_neg (by simp), hpair]
  cases fault with
  | some err => simp [DB.Exec]
  | none =>
    simp only [DB.Exec, countPlaceholders_insertText, hlen, List.length_cons, ne_eq,
      not_true_eq_false, if_false, hrows, hids]
    by_cases hf : freshKeys db.ids ((e :: rest).map Entry.ID) = true
    · simp only [hf, if_true]
    · simp only [hf, if_false]
      rfl

/-! ## Goroutines and the scheduler -/

theorem pickAt_perm (n : Nat) (x : α) (xs : List α) :
    ((pickAt n x xs).1 :: (pickAt n x xs).2).Perm (x :: xs) := by
  induction n generalizing x xs with
  | zero => simp [pickAt]
  | succ k ih =>
    cases xs with
    | nil => simp [pickAt]
    | cons y ys =>
      simp only [pickAt]
      exact ((List.Perm.swap x _ _).trans ((ih y ys).cons x))

/-- Whatever the scheduler chooses, the items that come out are the pending
items, each once. -/
theorem schedule_perm (cs : List Nat) (xs : List α) : (schedule cs xs).Perm xs := by
  induction cs generalizing xs with
  | nil => cases xs <;> simp [schedule]
  | cons c cs ih =>
    cases xs with
    | nil => simp [schedule]
    | cons x xs =>
      simp only [schedule]
      exact ((ih _).cons _).trans (pickAt_perm c x xs)

theorem runGoroutine_called (lib : Lib) (env : QueryEnv) (openAIKey : String) (ex : IDSet)
    (i : Nat) (e : Entry) :
    (runGoroutine lib env openAIKey ex i e).called = !ex.contains e.ID := by
  unfold runGoroutine
  cases h : ex.contains e.ID
  · cases hg : GetGPTInfoForPaper lib env i openAIKey e.Summary <;> simp
  · simp

theorem runGoroutine_index (lib : Lib) (env : QueryEnv) (openAIKey : String) (ex : IDSet)
    (i : Nat) (e : Entry) :
    (runGoroutine lib env openAIKey ex i e).index = i := by
  unfold runGoroutine
  cases h : ex.contains e.ID
  · cases hg : GetGPTInfoForPaper lib env i openAIKey e.Summary <;> simp
  · simp

theorem runGoroutine_entry (lib : Lib) (env : QueryEnv) (openAIKey : String) (ex : IDSet)
    (i : Nat) (e : Entry) :
    (runGoroutine lib env openAIKey ex i e).entry = e := by
  unfold runGoroutine
  cases h : ex.contains e.ID
  · cases hg : GetGPTInfoForPaper lib env i openAIKey e.Summary <;> simp
  · simp

theorem runGoroutine_sent (lib : Lib) (env : QueryEnv) (openAIKey : String) (ex : IDSet)
    (i : Nat) (e : Entry) :
    (runGoroutine lib env openAIKey ex i e).sent =
      if ex.contains e.ID then none else enriched lib env openAIKey (i, e) := by
  unfold runGoroutine enriched enrichment
  cases h : ex.contains e.ID
  · cases hg : GetGPTInfoForPaper lib env i openAIKey e.Summary <;> simp
  · simp

theorem runGoroutine_panicked (lib : Lib) (env : QueryEnv) (openAIKey : String) (ex : IDSet)
    (i : Nat) (e : Entry) :
    (runGoroutine lib env openAIKey ex i e).panicked =
      (!ex.contains e.ID && !(enrichment lib env openAIKey (i, e)).returns) := by
  unfold runGoroutine enrichment
  cases h : ex.contains e.ID
  · cases hg : GetGPTInfoForPaper lib env i openAIKey e.Summary <;> simp [GPTOutcome.returns]
  · simp

theorem spawn_called (lib : Lib) (env : QueryEnv) (openAIKey : String) (ex : IDSet) (i : Nat)
    (entries : List Entry) :
    ((spawn lib env openAIKey ex i entries).filter Goroutine.called).map
      (fun g => (g.index, g.entry)) = unknownEntries ex i entries := by
  induction entries generalizing i with
  | nil => rfl
  | cons e es ih =>
    have ih2 := ih (i + 1)
    simp only [unknownEntries] at ih2
    simp only [spawn, unknownEntries, List.enumFrom_cons, List.filter_cons, runGoroutine_called]
    cases h : ex.contains e.ID
    · simp only [Bool.not_false, if_true, List.map_cons, runGoroutine_index, runGoroutine_entry, ih2]
    · simp only [Bool.not_true, Bool.false_eq_true, if_false, ih2]

theorem spawn_sent (lib : Lib) (env : QueryEnv) (openAIKey : String) (ex : IDSet) (i : Nat)
    (entries : List Entry) :
    (spawn lib env openAIKey ex i entries).filterMap Goroutine.sent =
      (unknownEntries ex i entries).filterMap (enriched lib env openAIKey) := by
  induction entries generalizing i with
  | nil => rfl
  | cons e es ih =>
    have ih2 := ih (i + 1)
    simp only [unknownEntries] at ih2
    simp only [spawn, unknownEntries, List.enumFrom_cons, List.filter_cons, List.filterMap_cons,
      runGoroutine_sent]
    cases h : ex.contains e.ID
    · simp only [Bool.not_false, if_true, Bool.false_eq_true, if_false, List.filterMap_cons, ih2]
    · simp only [Bool.not_true, Bool.false_eq_true, if_false, if_true, ih2]

/-- Some goroutine panics exactly when the call made for one of the unknown
entries does. -/
theorem spawn_any_panicked (lib : Lib) (env : QueryEnv) (openAIKey : String) (ex : IDSet)
    (i : Nat) (entries : List Entry) :
    (spawn lib env openAIKey ex i entries).any Goroutine.panicked =
      (unknownEntries ex i entries).any (fun p => !(enrichment lib env openAIKey p).returns) := by
  induction entries generalizing i with
  | nil => rfl
  | cons e es ih =>
    have ih2 := ih (i + 1)
    simp only [unknownEntries] at ih2
    simp only [spawn, unknownEntries, List.enumFrom_cons, List.filter_cons, List.any_cons,
      runGoroutine_panicked, ih2]
    cases h : ex.contains e.ID
    · simp only [Bool.not_false, if_true, List.any_cons, Bool.true_and]
    · simp only [Bool.not_true, Bool.false_eq_true, if_false, Bool.false_and, Bool.false_or]

theorem unknownEntries_existingOf (db : DB) (i : Nat) (entries : List Entry) :
    unknownEntries (existingOf db (entries.map Entry.ID)) i entries =
      unknownEntries db.ids i entries := by
  unfold unknownEntries
  apply List.filter_congr
  intro p hp
  have hmem : p.2.ID ∈ entries.map Entry.ID :=
    List.mem_map_of_mem _ (List.snd_mem_of_mem_enumFrom hp)
  have := mem_existingOf db (entries.map Entry.ID) p.2.ID
  by_cases h : p.2.ID ∈ db.ids
  · have h1 : p.2.ID ∈ existingOf db (entries.map Entry.ID) := this.2 ⟨hmem, h⟩
    simp [h, h1]
  · have h1 : p.2.ID ∉ existingOf db (entries.map Entry.ID) := fun hc => h (this.1 hc).2
    simp [h, h1]

/-! ## Traces of a run -/

theorem gptCalls_append (a b : List Event) : gptCalls (a ++ b) = gptCalls a ++ gptCalls b := by
  induction a with
  | nil => rfl
  | cons e es ih => cases e <;> simp [gptCalls, ih]

theorem saveCalls_append (a b : List Event) : saveCalls (a ++ b) = saveCalls a ++ saveCalls b := by
  induction a with
  | nil => rfl
  | cons e es ih => cases e <;> simp [saveCalls, ih]

theorem execCalls_append (a b : List Event) : execCalls (a ++ b) = execCalls a ++ execCalls b := by
  induction a with
  | nil => rfl
  | cons e es ih => cases e <;> simp [execCalls, ih]

theorem gptCalls_map (key : String) (gs : List Goroutine) :
    gptCalls (gs.map (fun g => Event.gptCall g.index key g.entry.Summary)) =
      gs.map Goroutine.index := by
  induction gs with
  | nil => rfl
  | cons g gs ih => simp [gptCalls, ih]

theorem saveCalls_map (key : String) (gs : List Goroutine) :
    saveCalls (gs.map (fun g => Event.gptCall g.index key g.entry.Summary)) = [] := by
  induction gs with
  | nil => rfl
  | cons g gs ih => simp [saveCalls, ih]

theorem execCalls_map (key : String) (gs : List Goroutine) :
    execCalls (gs.map (fun g => Event.gptCall g.index key g.entry.Summary)) = [] := by
  induction gs with
  | nil => rfl
  | cons g gs ih => simp [execCalls, ih]

theorem SaveToDatabaseBatch_nil (lib : Lib) (db : DB) (fault : Option String) (queryID : String) :
    SaveToDatabaseBatch lib db fault [] queryID = ⟨none, db, []⟩ := by
  simp [SaveToDatabaseBatch]

theorem SaveToDatabaseBatch_stmts (lib : Lib) (db : DB) (fault : Option String)
    (entries : List Entry) (queryID : String) :
    (SaveToDatabaseBatch lib db fault entries queryID).stmts =
      match entries with
      | [] => []
      | e :: rest =>
        [Event.dbExec (insertText rest.length) ((e :: rest).flatMap (entryValues lib queryID))] := by
  cases entries with
  | nil => rw [SaveToDatabaseBatch_nil]
  | cons e rest =>
    rw [SaveToDatabaseBatch_cons]
    cases fault with
    | some err => rfl
    | none =>
      simp only []
      split <;> rfl

theorem saveCalls_stmts (lib : Lib) (db : DB) (fault : Option String)
    (entries : List Entry) (queryID : String) :
    saveCalls (SaveToDatabaseBatch lib db fault entries queryID).stmts = [] := by
  rw [SaveToDatabaseBatch_stmts]
  cases entries <;> rfl

theorem gptCalls_stmts (lib : Lib) (db : DB) (fault : Option String)
    (entries : List Entry) (queryID : String) :
    gptCalls (SaveToDatabaseBatch lib db fault entries queryID).stmts = [] := by
  rw [SaveToDatabaseBatch_stmts]
  cases entries <;> rfl

theorem gptCalls_gptEvents (env : QueryEnv) (openAIKey : String) (gs : List Goroutine) :
    gptCalls (gptEvents env openAIKey gs) =
      (schedule env.callOrder (gs.filter Goroutine.called)).map Goroutine.index := by
  unfold gptEvents
  exact gptCalls_map openAIKey _

/-- The run of `ProcessQuery` when the feed was fetched, is not empty, and the
lookup met no engine failure. -/
theorem ProcessQuery_lookup_ok (lib : Lib) (env : QueryEnv) (db : DB) (query : Query)
    (openAIKey data : String) (feed : Feed)
    (hget : env.httpGet (ConstructArxivAPIURL query.Query) = .ok data)
    (hxml : lib.xmlUnmarshal data = .ok feed) (hne : feed.Entries ≠ [])
    (hq : env.queryFault = none) :
    ProcessQuery lib env db query openAIKey =
      (let paperIDs := feed.Entries.map Entry.ID
       let gs := spawn lib env openAIKey (existingOf db paperIDs) 0 feed.Entries
       let saved := SaveToDatabaseBatch lib db env.execFault (collect env gs) query.ID
       let start := [.httpGet (ConstructArxivAPIURL query.Query), .getExistingPaperIDs paperIDs,
           .dbQuery (lookupText paperIDs.length) (paperIDs.map SqlValue.text)] ++
         gptEvents env openAIKey gs
       let trace := start ++ [.saveToDatabaseBatch (collect env gs) query.ID] ++ saved.stmts
       if gs.any Goroutine.panicked then
         ⟨db, start ++ [.panic "runtime error: index out of range [0] with length 0"], true, none⟩
       else if (collect env gs).length = 0 then ⟨saved.db, trace, false, saved.err⟩
       else ⟨saved.db, trace ++ [.saveEntriesToMarkdown (collect env gs)], false, saved.err⟩) := by
  have hlen : ¬ (feed.Entries.map Entry.ID).length = 0 := by
    simpa [List.length_eq_zero] using hne
  unfold ProcessQuery
  simp only [hget, hxml, hlen, if_false, hq, GetExistingPaperIDs_none]
  rfl

/-- Which enrichment calls a run makes once the lookup has answered, whether or
not one of them panics. -/
theorem lookup_ok_gptCalls (lib : Lib) (env : QueryEnv) (db : DB) (query : Query)
    (openAIKey data : String) (feed : Feed)
    (hget : env.httpGet (ConstructArxivAPIURL query.Query) = .ok data)
    (hxml : lib.xmlUnmarshal data = .ok feed) (hne : feed.Entries ≠ [])
    (hq : env.queryFault = none) :
    gptCalls (ProcessQuery lib env db query openAIKey).trace =
      (schedule env.callOrder ((spawn lib env openAIKey (existingOf db (feed.Entries.map Entry.ID))
        0 feed.Entries).filter Goroutine.called)).map Goroutine.index := by
  rw [ProcessQuery_lookup_ok lib env db query openAIKey data feed hget hxml hne hq]
  simp only []
  split
  · simp [gptCalls_append, gptCalls_gptEvents, gptCalls]
  · split <;> simp [gptCalls_append, gptCalls_gptEvents, gptCalls_stmts, gptCalls]

/-- A run in which the call made for an unstored feed entry panics: the process
ends, nothing is handed to `SaveToDatabaseBatch` and storage is untouched. -/
theorem ProcessQuery_panicked (lib : Lib) (env : QueryEnv) (db : DB) (query : Query)
    (openAIKey data : String) (feed : Feed)
    (hget : env.httpGet (ConstructArxivAPIURL query.Query) = .ok data)
    (hxml : lib.xmlUnmarshal data = .ok feed) (hne : feed.Entries ≠ [])
    (hq : env.queryFault = none)
    (hpanic : ∃ p ∈ unknownEntries db.ids 0 feed.Entries,
      (enrichment lib env openAIKey p).returns = false) :
    (ProcessQuery lib env db query openAIKey).exited = true ∧
    saveCalls (ProcessQuery lib env db query openAIKey).trace = [] ∧
    execCalls (ProcessQuery lib env db query openAIKey).trace = [] ∧
    (ProcessQuery lib env db query openAIKey).db = db := by
  have hany : (spawn lib env openAIKey (existingOf db (feed.Entries.map Entry.ID)) 0
      feed.Entries).any Goroutine.panicked = true := by
    rw [spawn_any_panicked, unknownEntries_existingOf, List.any_eq_true]
    obtain ⟨p, hp, hr⟩ := hpanic
    exact ⟨p, hp, by simp [hr]⟩
  rw [ProcessQuery_lookup_ok lib env db query openAIKey data feed hget hxml hne hq]
  simp only [hany, if_true]
  refine ⟨trivial, ?_, ?_, trivial⟩
  · simp [saveCalls_append, gptEvents, saveCalls_map, saveCalls]
  · simp [execCalls_append, gptEvents, execCalls_map, execCalls]

/-- The run of `ProcessQuery` when the feed was fetched, is not empty, the
lookup met no engine failure and every enrichment call returned. -/
theorem ProcessQuery_reached (lib : Lib) (env : QueryEnv) (db : DB) (query : Query)
    (openAIKey data : String) (feed : Feed)
    (hget : env.httpGet (ConstructArxivAPIURL query.Query) = .ok data)
    (hxml : lib.xmlUnmarshal data = .ok feed) (hne : feed.Entries ≠ [])
    (hq : env.queryFault = none)
    (hret : ∀ p ∈ unknownEntries db.ids 0 feed.Entries,
      (enrichment lib env openAIKey p).returns = true) :
    ProcessQuery lib env db query openAIKey =
      (let paperIDs := feed.Entries.map Entry.ID
       let gs := spawn lib env openAIKey (existingOf db paperIDs) 0 feed.Entries
       let saved := SaveToDatabaseBatch lib db env.execFault (collect env gs) query.ID
       let trace := [.httpGet (ConstructArxivAPIURL query.Query), .getExistingPaperIDs paperIDs,
           .dbQuery (lookupText paperIDs.length) (paperIDs.map SqlValue.text)] ++
         gptEvents env openAIKey gs ++ [.saveToDatabaseBatch (collect env gs) query.ID] ++
         saved.stmts
       if (collect env gs).length = 0 then ⟨saved.db, trace, false, saved.err⟩
       else ⟨saved.db, trace ++ [.saveEntriesToMarkdown (collect env gs)], false, saved.err⟩) := by
  have hno : (spawn lib env openAIKey (existingOf db (feed.Entries.map Entry.ID)) 0
      feed.Entries).any Goroutine.panicked = false := by
    rw [spawn_any_panicked, unknownEntries_existingOf, List.any_eq_false]
    intro p hp
    simp [hret p hp]
  rw [ProcessQuery_lookup_ok lib env db query openAIKey data feed hget hxml hne hq]
  simp only [hno, Bool.false_eq_true, if_false]

section Reached

variable (lib : Lib) (env : QueryEnv) (db : DB) (query : Query) (openAIKey data : String)
  (feed : Feed) (hget : env.httpGet (ConstructArxivAPIURL query.Query) = .ok data)
  (hxml : lib.xmlUnmarshal data = .ok feed) (hne : feed.Entries ≠ [])
  (hq : env.queryFault = none)
  (hret : ∀ p ∈ unknownEntries db.ids 0 feed.Entries,
    (enrichment lib env openAIKey p).returns = true)

include hget hxml hne hq hret

theorem reached_saveCalls :
    saveCalls (ProcessQuery lib env db query openAIKey).trace =
      [(collect env (spawn lib env openAIKey (existingOf db (feed.Entries.map Entry.ID)) 0 feed.Entries),
        query.ID)] := by
  rw [ProcessQuery_reached lib env db query openAIKey data feed hget hxml hne hq hret]
  simp only []
  split <;>
    simp [saveCalls_append, gptEvents, saveCalls_map, saveCalls_stmts, saveCalls]

theorem reached_execCalls :
    execCalls (ProcessQuery lib env db query openAIKey).trace =
      execCalls (SaveToDatabaseBatch lib db env.execFault
        (collect env (spawn lib env openAIKey (existingOf db (feed.Entries.map Entry.ID)) 0 feed.Entries))
        query.ID).stmts := by
  rw [ProcessQuery_reached lib env db query openAIKey data feed hget hxml hne hq hret]
  simp only []
  split <;>
    simp [execCalls_append, gptEvents, execCalls_map, execCalls]

theorem reached_db :
    (ProcessQuery lib env db query openAIKey).db =
      (SaveToDatabaseBatch lib db env.execFault
        (collect env (spawn lib env openAIKey (existingOf db (feed.Entries.map Entry.ID)) 0 feed.Entries))
        query.ID).db := by
  rw [ProcessQuery_reached lib env db query openAIKey data feed hget hxml hne hq hret]
  simp only []
  split <;> rfl

theorem reached_saveErr :
    (ProcessQuery lib env db query openAIKey).saveErr =
      (SaveToDatabaseBatch lib db env.execFault
        (collect env (spawn lib env openAIKey (existingOf db (feed.Entries.map Entry.ID)) 0 feed.Entries))
        query.ID).err := by
  rw [ProcessQuery_reached lib env db query openAIKey data feed hget hxml hne hq hret]
  simp only []
  split <;> rfl

end Reached

/-! ## The persisted batch -/

theorem length_filterMap_add (f : α → Option β) (l : List α) :
    (l.filterMap f).length + (l.filter (fun x => (f x).isNone)).length = l.length := by
  induction l with
  | nil => rfl
  | cons x xs ih =>
    cases h : f x <;> simp [List.filterMap_cons, List.filter_cons, h] <;> omega

theorem enriched_isNone (lib : Lib) (env : QueryEnv) (openAIKey : String) (p : Nat × Entry) :
    (enriched lib env openAIKey p).isNone = !(enrichment lib env openAIKey p).isOk := by
  unfold enriched
  cases h : enrichment lib env openAIKey p <;> simp [GPTOutcome.isOk]

/-- What C1 says, for the runs in which every enrichment call returns (with a
response or with an error): when the feed is fetched and the lookup answers,
with `N` feed entries whose id is not stored and `K` of them whose call returns
an error, `SaveToDatabaseBatch` is handed one batch, of exactly `N - K`
entries; the batch is, up to order, the list of the unstored feed entries whose
call returned a response, each carrying that call's summary, contributions and
tags. -/
theorem batch_of_returning_calls (lib : Lib) (env : QueryEnv) (db : DB) (query : Query)
    (openAIKey data : String) (feed : Feed)
    (hget : env.httpGet (ConstructArxivAPIURL query.Query) = .ok data)
    (hxml : lib.xmlUnmarshal data = .ok feed) (hne : feed.Entries ≠ [])
    (hq : env.queryFault = none)
    (hret : ∀ p ∈ unknownEntries db.ids 0 feed.Entries,
      (enrichment lib env openAIKey p).returns = true) :
    ∃ batch,
      saveCalls (ProcessQuery lib env db query openAIKey).trace = [(batch, query.ID)] ∧
      batch.length =
        (unknownEntries db.ids 0 feed.Entries).length -
          ((unknownEntries db.ids 0 feed.Entries).filter
            (fun p => !(enrichment lib env openAIKey p).isOk)).length ∧
      batch.Perm ((unknownEntries db.ids 0 feed.Entries).filterMap (enriched lib env openAIKey)) ∧
      ∀ e ∈ batch, ∃ i entry r,
        (i, entry) ∈ feed.Entries.enum ∧ entry.ID ∉ db.ids ∧
        GetGPTInfoForPaper lib env i openAIKey entry.Summary = .ok r ∧
        e = { entry with
          GPTSummary := r.Summary, GPTNewContributions := r.NewContributions, GPTTags := r.Tags } := by
  have hperm : (collect env (spawn lib env openAIKey (existingOf db (feed.Entries.map Entry.ID)) 0
      feed.Entries)).Perm
      ((unknownEntries db.ids 0 feed.Entries).filterMap (enriched lib env openAIKey)) := by
    unfold collect
    rw [← unknownEntries_existingOf, ← spawn_sent]
    exact schedule_perm _ _
  refine ⟨collect env (spawn lib env openAIKey (existingOf db (feed.Entries.map Entry.ID)) 0
    feed.Entries), ?_, ?_, hperm, ?_⟩
  · exact reached_saveCalls lib env db query openAIKey data feed hget hxml hne hq hret
  · rw [hperm.length_eq]
    have := length_filterMap_add (enriched lib env openAIKey) (unknownEntries db.ids 0 feed.Entries)
    simp only [enriched_isNone] at this
    omega
  · intro e he
    have hmem := hperm.subset he
    rw [List.mem_filterMap] at hmem
    obtain ⟨⟨i, entry⟩, hp, hen⟩ := hmem
    simp only [unknownEntries, List.mem_filter, Bool.not_eq_true'] at hp
    unfold enriched enrichment at hen
    cases hg : GetGPTInfoForPaper lib env i openAIKey entry.Summary with
    | error err => simp [hg] at hen
    | panic => simp [hg] at hen
    | ok r =>
      simp only [hg, Option.some.injEq] at hen
      exact ⟨i, entry, r, hp.1, by simpa using hp.2, hg, hen.symm⟩

set_option maxRecDepth 100000 in
/-- The scenario of the specification: feed `A, B, C`, `B` stored, every
enrichment call returning a response; the batch is `A` and `C`. -/
theorem batch_of_returning_calls_scenario :
    (Sample.env "A,B,C" none true).queryFault = none ∧
    ∃ batch,
      saveCalls (ProcessQuery Sample.lib (Sample.env "A,B,C" none true) (Sample.stored ["B"])
        ⟨"q1", "transformers"⟩ "key").trace = [(batch, "q1")] ∧
      batch.length = 2 ∧
      batch.Perm [{ Sample.entry "A" with GPTSummary := "s", GPTNewContributions := "c", GPTTags := ["t"] },
        { Sample.entry "C" with GPTSummary := "s", GPTNewContributions := "c", GPTTags := ["t"] }] :=
  ⟨rfl, (batch_of_returning_calls Sample.lib (Sample.env "A,B,C" none true) (Sample.stored ["B"])
    ⟨"q1", "transformers"⟩ "key" "A,B,C"
    ⟨[Sample.entry "A", Sample.entry "B", Sample.entry "C"]⟩ rfl rfl (by decide) rfl
    (by decide)).imp
    (fun _ h => ⟨h.1, h.2.1.trans (by decide), h.2.2.1.trans (by decide)⟩)⟩

set_option maxRecDepth 100000 in
/-- C1 fails on the code: feed `A, B`, nothing stored, the chat service answers
the request for `A` with an empty list of choices and the request for `B` with
one choice. The call for `A` panics at `resp.Choices[0]`, the call for `B`
returns a response; the process ends, no batch is handed to
`SaveToDatabaseBatch` and nothing is stored, where the claim has the batch
holding `B`. -/
theorem empty_choices_end_the_run :
    GetGPTInfoForPaper Sample.lib (Sample.envNoChoice "A,B") 0 "key" (Sample.entry "A").Summary =
      .panic ∧
    GetGPTInfoForPaper Sample.lib (Sample.envNoChoice "A,B") 1 "key" (Sample.entry "B").Summary =
      .ok ⟨"s", "c", ["t"]⟩ ∧
    (ProcessQuery Sample.lib (Sample.envNoChoice "A,B") (Sample.stored [])
      ⟨"q1", "transformers"⟩ "key").exited = true ∧
    saveCalls (ProcessQuery Sample.lib (Sample.envNoChoice "A,B") (Sample.stored [])
      ⟨"q1", "transformers"⟩ "key").trace = [] ∧
    (ProcessQuery Sample.lib (Sample.envNoChoice "A,B") (Sample.stored [])
      ⟨"q1", "transformers"⟩ "key").db.ids = [] := by
  decide

/-! ## Known identifiers and enrichment calls -/

theorem ProcessQuery_empty (lib : Lib) (env : QueryEnv) (db : DB) (query : Query)
    (openAIKey data : String) (feed : Feed)
    (hget : env.httpGet (ConstructArxivAPIURL query.Query) = .ok data)
    (hxml : lib.xmlUnmarshal data = .ok feed) (hempty : feed.Entries = []) :
    ProcessQuery lib env db query openAIKey =
      ⟨db, [.httpGet (ConstructArxivAPIURL query.Query)], false, none⟩ := by
  unfold ProcessQuery
  simp only [hget, hxml, hempty, List.map_nil, List.length_nil, if_true]

theorem ProcessQuery_lookup_failed (lib : Lib) (env : QueryEnv) (db : DB) (query : Query)
    (openAIKey data err : String) (feed : Feed)
    (hget : env.httpGet (ConstructArxivAPIURL query.Query) = .ok data)
    (hxml : lib.xmlUnmarshal data = .ok feed) (hne : feed.Entries ≠ [])
    (hq : env.queryFault = some err) :
    ProcessQuery lib env db query openAIKey =
      ⟨db, [.httpGet (ConstructArxivAPIURL query.Query),
          .getExistingPaperIDs (feed.Entries.map Entry.ID),
          .dbQuery (lookupText (feed.Entries.map Entry.ID).length)
            ((feed.Entries.map Entry.ID).map SqlValue.text),
          .logFatal ("Failed to check existing papers: " ++ err)], true, none⟩ := by
  have hlen : ¬ (feed.Entries.map Entry.ID).length = 0 := by
    simpa [List.length_eq_zero] using hne
  unfold ProcessQuery
  simp only [hget, hxml, hlen, if_false, hq, GetExistingPaperIDs_some]
  rfl

theorem schedule_nil (cs : List Nat) : schedule cs ([] : List α) = [] := by
  cases cs <;> rfl

/-- C2. `GetExistingPaperIDs` returns exactly the candidate ids that are present
in storage, and the feed entries on which `ProcessQuery` calls the enrichment
service are exactly (each once) the entries whose id is not in the returned
set. -/
theorem existing_exact_and_enriched_complement (lib : Lib) (env : QueryEnv) (db : DB)
    (query : Query) (openAIKey data : String) (feed : Feed)
    (hget : env.httpGet (ConstructArxivAPIURL query.Query) = .ok data)
    (hxml : lib.xmlUnmarshal data = .ok feed) (hq : env.queryFault = none) :
    (∀ paperIDs : List String, ∃ m,
      (GetExistingPaperIDs lib db none paperIDs).1 = .ok m ∧
      ∀ id, id ∈ m ↔ id ∈ paperIDs ∧ id ∈ db.ids) ∧
    ∃ m, (GetExistingPaperIDs lib db env.queryFault (feed.Entries.map Entry.ID)).1 = .ok m ∧
      (gptCalls (ProcessQuery lib env db query openAIKey).trace).Perm
        ((unknownEntries m 0 feed.Entries).map Prod.fst) := by
  constructor
  · intro paperIDs
    exact ⟨existingOf db paperIDs, by rw [GetExistingPaperIDs_none], mem_existingOf db paperIDs⟩
  · refine ⟨existingOf db (feed.Entries.map Entry.ID), by rw [hq, GetExistingPaperIDs_none], ?_⟩
    by_cases hne : feed.Entries = []
    · rw [ProcessQuery_empty lib env db query openAIKey data feed hget hxml hne, hne]
      exact List.Perm.refl _
    · rw [lookup_ok_gptCalls lib env db query openAIKey data feed hget hxml hne hq,
        ← spawn_called lib env openAIKey]
      have h := schedule_perm env.callOrder
        ((spawn lib env openAIKey (existingOf db (feed.Entries.map Entry.ID)) 0 feed.Entries).filter
          Goroutine.called)
      simpa [Function.comp_def] using h.map Goroutine.index

/-- Witness for C2: feed `A, B, C` with `B` stored. -/
theorem existing_exact_and_enriched_complement_witness :
    (Sample.env "A,B,C" none true).queryFault = none ∧
    ∃ m, (GetExistingPaperIDs Sample.lib (Sample.stored ["B"]) none ["A", "B", "C"]).1 = .ok m ∧
      (gptCalls (ProcessQuery Sample.lib (Sample.env "A,B,C" none true) (Sample.stored ["B"])
        ⟨"q1", "transformers"⟩ "key").trace).Perm
        ((unknownEntries m 0 [Sample.entry "A", Sample.entry "B", Sample.entry "C"]).map
          Prod.fst) :=
  ⟨rfl, (existing_exact_and_enriched_complement Sample.lib (Sample.env "A,B,C" none true)
    (Sample.stored ["B"]) ⟨"q1", "transformers"⟩ "key" "A,B,C"
    ⟨[Sample.entry "A", Sample.entry "B", Sample.entry "C"]⟩ rfl rfl rfl).2⟩

/-! ## Empty feeds and lookup failures -/

/-- C5. When the fetched feed has no entry, `ProcessQuery` returns normally
without calling `GetExistingPaperIDs`, the enrichment service or
`SaveToDatabaseBatch`, storage is untouched, and the query loop goes on with
the next query. -/
theorem empty_feed_makes_no_calls (lib : Lib) (env : QueryEnv) (db : DB) (query : Query)
    (openAIKey data : String) (feed : Feed) (rest : List (Query × QueryEnv))
    (hget : env.httpGet (ConstructArxivAPIURL query.Query) = .ok data)
    (hxml : lib.xmlUnmarshal data = .ok feed) (hempty : feed.Entries = []) :
    (ProcessQuery lib env db query openAIKey).exited = false ∧
    (ProcessQuery lib env db query openAIKey).db = db ∧
    (ProcessQuery lib env db query openAIKey).trace =
      [.httpGet (ConstructArxivAPIURL query.Query)] ∧
    lookupCalls (ProcessQuery lib env db query openAIKey).trace = [] ∧
    gptCalls (ProcessQuery lib env db query openAIKey).trace = [] ∧
    saveCalls (ProcessQuery lib env db query openAIKey).trace = [] ∧
    processQueries lib openAIKey db ((query, env) :: rest) =
      ⟨(processQueries lib openAIKey db rest).db,
        .httpGet (ConstructArxivAPIURL query.Query) :: (processQueries lib openAIKey db rest).trace,
        (processQueries lib openAIKey db rest).exited⟩ := by
  have h := ProcessQuery_empty lib env db query openAIKey data feed hget hxml hempty
  refine ⟨by rw [h], by rw [h], by rw [h], by rw [h]; rfl, by rw [h]; rfl, by rw [h]; rfl, ?_⟩
  simp only [processQueries, h, Bool.false_eq_true, if_false, List.singleton_append]

/-- Witness for C5: two queries whose feeds are empty. -/
theorem empty_feed_makes_no_calls_witness :
    lookupCalls (ProcessQuery Sample.lib (Sample.env "" none true) (Sample.stored ["B"])
      ⟨"q1", "transformers"⟩ "key").trace = [] ∧
    (processQueries Sample.lib "key" (Sample.stored ["B"])
      [(⟨"q1", "transformers"⟩, Sample.env "" none true),
       (⟨"q2", "diffusion"⟩, Sample.env "" none true)]).trace =
      [.httpGet (ConstructArxivAPIURL "transformers"), .httpGet (ConstructArxivAPIURL "diffusion")] :=
  have h := empty_feed_makes_no_calls Sample.lib (Sample.env "" none true) (Sample.stored ["B"])
    ⟨"q1", "transformers"⟩ "key" "" ⟨[]⟩ [(⟨"q2", "diffusion"⟩, Sample.env "" none true)]
    rfl rfl rfl
  ⟨h.2.2.2.1, by rw [h.2.2.2.2.2.2]; rfl⟩

/-- C6 (as the code has it). When the lookup fails during `ProcessQuery`, no
enrichment call and no persist happens for that query and storage is
untouched; `log.Fatalf` ends the process, so the query loop stops there and
the remaining queries are not processed. -/
theorem lookup_failure_ends_process (lib : Lib) (env : QueryEnv) (db : DB) (query : Query)
    (openAIKey data err : String) (feed : Feed) (rest : List (Query × QueryEnv))
    (hget : env.httpGet (ConstructArxivAPIURL query.Query) = .ok data)
    (hxml : lib.xmlUnmarshal data = .ok feed) (hne : feed.Entries ≠ [])
    (hq : env.queryFault = some err) :
    gptCalls (ProcessQuery lib env db query openAIKey).trace = [] ∧
    saveCalls (ProcessQuery lib env db query openAIKey).trace = [] ∧
    execCalls (ProcessQuery lib env db query openAIKey).trace = [] ∧
    (ProcessQuery lib env db query openAIKey).db = db ∧
    (ProcessQuery lib env db query openAIKey).exited = true ∧
    processQueries lib openAIKey db ((query, env) :: rest) =
      ⟨db, (ProcessQuery lib env db query openAIKey).trace, true⟩ := by
  have h := ProcessQuery_lookup_failed lib env db query openAIKey data err feed hget hxml hne hq
  refine ⟨by rw [h]; rfl, by rw [h]; rfl, by rw [h]; rfl, by rw [h], by rw [h], ?_⟩
  simp only [processQueries, h, if_true]

/-- Witness for C6: the first of two queries meets a lookup failure. -/
theorem lookup_failure_ends_process_witness :
    (Sample.env "A" (some "disk I/O error") true).queryFault = some "disk I/O error" ∧
    processQueries Sample.lib "key" (Sample.stored [])
      [(⟨"q1", "transformers"⟩, Sample.env "A" (some "disk I/O error") true),
       (⟨"q2", "diffusion"⟩, Sample.env "B" none true)] =
      ⟨Sample.stored [], (ProcessQuery Sample.lib (Sample.env "A" (some "disk I/O error") true)
        (Sample.stored []) ⟨"q1", "transformers"⟩ "key").trace, true⟩ :=
  ⟨rfl, (lookup_failure_ends_process Sample.lib (Sample.env "A" (some "disk I/O error") true)
    (Sample.stored []) ⟨"q1", "transformers"⟩ "key" "A" "disk I/O error" ⟨[Sample.entry "A"]⟩
    [(⟨"q2", "diffusion"⟩, Sample.env "B" none true)] rfl rfl (by decide) rfl).2.2.2.2.2⟩

set_option maxRecDepth 100000 in
/-- C6 fails as stated: with two queries of which the first meets a lookup
failure, the process is ended and the second query is never started, although
on its own the second query is fetched and its paper persisted. -/
theorem lookup_failure_skips_next_query :
    (processQueries Sample.lib "key" (Sample.stored [])
      [(⟨"q1", "transformers"⟩, Sample.env "A" (some "disk I/O error") true),
       (⟨"q2", "diffusion"⟩, Sample.env "B" none true)]).exited = true ∧
    Event.httpGet (ConstructArxivAPIURL "diffusion") ∉
      (processQueries Sample.lib "key" (Sample.stored [])
        [(⟨"q1", "transformers"⟩, Sample.env "A" (some "disk I/O error") true),
         (⟨"q2", "diffusion"⟩, Sample.env "B" none true)]).trace ∧
    (processQueries Sample.lib "key" (Sample.stored [])
      [(⟨"q1", "transformers"⟩, Sample.env "A" (some "disk I/O error") true),
       (⟨"q2", "diffusion"⟩, Sample.env "B" none true)]).db.ids = [] ∧
    (processQueries Sample.lib "key" (Sample.stored [])
      [(⟨"q2", "diffusion"⟩, Sample.env "B" none true)]).db.ids = ["B"] := by
  decide

/-! ## Calls of SaveToDatabaseBatch -/

theorem execCalls_stmts (lib : Lib) (db : DB) (fault : Option String)
    (entries : List Entry) (queryID : String) :
    execCalls (SaveToDatabaseBatch lib db fault entries queryID).stmts =
      match entries with
      | [] => []
      | e :: rest => [(insertText rest.length, (e :: rest).flatMap (entryValues lib queryID))] := by
  rw [SaveToDatabaseBatch_stmts]
  cases entries <;> rfl

/-- C4 (as the code has it). Every run of `ProcessQuery` that gets past the
lookup and in which every enrichment call returns (with a response or with an
error) calls `SaveToDatabaseBatch` exactly once, also with an empty batch. With
an empty batch the call sends no statement to the engine and returns `nil`, so
storage is unchanged; with a non-empty batch it sends exactly one insert
statement. -/
theorem save_called_once (lib : Lib) (env : QueryEnv) (db : DB) (query : Query)
    (openAIKey data : String) (feed : Feed)
    (hget : env.httpGet (ConstructArxivAPIURL query.Query) = .ok data)
    (hxml : lib.xmlUnmarshal data = .ok feed) (hne : feed.Entries ≠ [])
    (hq : env.queryFault = none)
    (hret : ∀ p ∈ unknownEntries db.ids 0 feed.Entries,
      (enrichment lib env openAIKey p).returns = true) :
    ∃ batch,
      saveCalls (ProcessQuery lib env db query openAIKey).trace = [(batch, query.ID)] ∧
      (batch = [] →
        execCalls (ProcessQuery lib env db query openAIKey).trace = [] ∧
        (ProcessQuery lib env db query openAIKey).saveErr = none ∧
        (ProcessQuery lib env db query openAIKey).db = db) ∧
      (batch ≠ [] →
        ∃ stmt args, execCalls (ProcessQuery lib env db query openAIKey).trace = [(stmt, args)]) := by
  refine ⟨collect env (spawn lib env openAIKey (existingOf db (feed.Entries.map Entry.ID)) 0 feed.Entries),
    reached_saveCalls lib env db query openAIKey data feed hget hxml hne hq hret, ?_, ?_⟩
  · intro hb
    rw [reached_execCalls lib env db query openAIKey data feed hget hxml hne hq hret,
      reached_saveErr lib env db query openAIKey data feed hget hxml hne hq hret,
      reached_db lib env db query openAIKey data feed hget hxml hne hq hret, hb,
      SaveToDatabaseBatch_nil]
    exact ⟨rfl, rfl, rfl⟩
  · intro hb
    rw [reached_execCalls lib env db query openAIKey data feed hget hxml hne hq hret, execCalls_stmts]
    cases hc : collect env (spawn lib env openAIKey (existingOf db (feed.Entries.map Entry.ID)) 0 feed.Entries) with
    | nil => exact absurd hc hb
    | cons e rest => exact ⟨_, _, rfl⟩

set_option maxRecDepth 100000 in
/-- Witness for C4: the only feed entry is already stored. -/
theorem save_called_once_witness :
    (Sample.env "A" none true).queryFault = none ∧
    ∃ batch,
      saveCalls (ProcessQuery Sample.lib (Sample.env "A" none true) (Sample.stored ["A"])
        ⟨"q1", "transformers"⟩ "key").trace = [(batch, "q1")] ∧
      (batch = [] →
        (ProcessQuery Sample.lib (Sample.env "A" none true) (Sample.stored ["A"])
          ⟨"q1", "transformers"⟩ "key").db = Sample.stored ["A"]) :=
  ⟨rfl, (save_called_once Sample.lib (Sample.env "A" none true) (Sample.stored ["A"])
    ⟨"q1", "transformers"⟩ "key" "A" ⟨[Sample.entry "A"]⟩ rfl rfl (by decide) rfl
    (by decide)).imp
    (fun _ h => ⟨h.1, fun hb => (h.2.1 hb).2.2⟩)⟩

set_option maxRecDepth 100000 in
/-- C4 fails as stated: when every feed id is already stored, and when every
enrichment call fails, the batch is empty and `ProcessQuery` still calls
`SaveToDatabaseBatch`, once, with the empty batch. -/
theorem save_called_with_empty_batch :
    saveCalls (ProcessQuery Sample.lib (Sample.env "A" none true) (Sample.stored ["A"])
      ⟨"q1", "transformers"⟩ "key").trace = [([], "q1")] ∧
    saveCalls (ProcessQuery Sample.lib (Sample.env "A,B" none false) (Sample.stored [])
      ⟨"q1", "transformers"⟩ "key").trace = [([], "q1")] := by
  decide

/-! ## Storage after a run -/

theorem SaveToDatabaseBatch_fault (lib : Lib) (db : DB) (err : String) (e : Entry)
    (rest : List Entry) (queryID : String) :
    SaveToDatabaseBatch lib db (some err) (e :: rest) queryID =
      ⟨some err, db, [Event.dbExec (insertText rest.length)
        ((e :: rest).flatMap (entryValues lib queryID))]⟩ := by
  rw [SaveToDatabaseBatch_cons]

theorem SaveToDatabaseBatch_fresh (lib : Lib) (db : DB) (e : Entry)
    (rest : List Entry) (queryID : String)
    (hf : freshKeys db.ids ((e :: rest).map Entry.ID) = true) :
    SaveToDatabaseBatch lib db none (e :: rest) queryID =
      ⟨none, ⟨db.papers ++ (e :: rest).map (entryRow lib queryID)⟩,
        [Event.dbExec (insertText rest.length) ((e :: rest).flatMap (entryValues lib queryID))]⟩ := by
  rw [SaveToDatabaseBatch_cons]
  simp only [hf, if_true]

theorem SaveToDatabaseBatch_collision (lib : Lib) (db : DB) (e : Entry)
    (rest : List Entry) (queryID : String)
    (hf : freshKeys db.ids ((e :: rest).map Entry.ID) = false) :
    SaveToDatabaseBatch lib db none (e :: rest) queryID =
      ⟨some "UNIQUE constraint failed: papers.paper_id", db,
        [Event.dbExec (insertText rest.length) ((e :: rest).flatMap (entryValues lib queryID))]⟩ := by
  rw [SaveToDatabaseBatch_cons]
  simp only [hf, Bool.false_eq_true, if_false]

theorem SaveToDatabaseBatch_ok (lib : Lib) (db : DB) (fault : Option String)
    (entries : List Entry) (queryID : String)
    (h : (SaveToDatabaseBatch lib db fault entries queryID).err = none) :
    (SaveToDatabaseBatch lib db fault entries queryID).db.papers =
      db.papers ++ entries.map (entryRow lib queryID) := by
  cases entries with
  | nil => simp [SaveToDatabaseBatch_nil]
  | cons e rest =>
    cases fault with
    | some err =>
      rw [SaveToDatabaseBatch_fault] at h
      exact absurd h (by simp)
    | none =>
      cases hf : freshKeys db.ids ((e :: rest).map Entry.ID)
      · rw [SaveToDatabaseBatch_collision lib db e rest queryID hf] at h
        exact absurd h (by simp)
      · rw [SaveToDatabaseBatch_fresh lib db e rest queryID hf]

theorem SaveToDatabaseBatch_err (lib : Lib) (db : DB) (fault : Option String)
    (entries : List Entry) (queryID : String)
    (h : (SaveToDatabaseBatch lib db fault entries queryID).err ≠ none) :
    (SaveToDatabaseBatch lib db fault entries queryID).db = db := by
  cases entries with
  | nil => simp [SaveToDatabaseBatch_nil]
  | cons e rest =>
    cases fault with
    | some err => rw [SaveToDatabaseBatch_fault]
    | none =>
      cases hf : freshKeys db.ids ((e :: rest).map Entry.ID)
      · rw [SaveToDatabaseBatch_collision lib db e rest queryID hf]
      · rw [SaveToDatabaseBatch_fresh lib db e rest queryID hf] at h
        exact absurd rfl h

theorem enriched_ID (lib : Lib) (env : QueryEnv) (openAIKey : String) (p : Nat × Entry)
    (e : Entry) (h : enriched lib env openAIKey p = some e) : e.ID = p.2.ID := by
  unfold enriched at h
  cases hg : enrichment lib env openAIKey p with
  | error err => simp [hg] at h
  | panic => simp [hg] at h
  | ok r =>
    simp only [hg, Option.some.injEq] at h
    rw [← h]

theorem returns_of_isOk (o : GPTOutcome) (h : o.isOk = true) : o.returns = true := by
  cases o <;> simp_all [GPTOutcome.isOk, GPTOutcome.returns]

theorem unknownEntries_eq_nil (known : List String) (i : Nat) (entries : List Entry)
    (h : ∀ e ∈ entries, e.ID ∈ known) : unknownEntries known i entries = [] := by
  unfold unknownEntries
  rw [List.filter_eq_nil_iff]
  intro p hp
  have := h p.2 (List.snd_mem_of_mem_enumFrom hp)
  simp [this]

/-- A run of `ProcessQuery` on a feed all of whose ids are stored: no
enrichment call, an empty batch, no statement, storage unchanged. -/
theorem ProcessQuery_all_known (lib : Lib) (env : QueryEnv) (db : DB) (query : Query)
    (openAIKey data : String) (feed : Feed)
    (hget : env.httpGet (ConstructArxivAPIURL query.Query) = .ok data)
    (hxml : lib.xmlUnmarshal data = .ok feed) (hq : env.queryFault = none)
    (hknown : ∀ e ∈ feed.Entries, e.ID ∈ db.ids) :
    gptCalls (ProcessQuery lib env db query openAIKey).trace = [] ∧
    (∀ b ∈ saveCalls (ProcessQuery lib env db query openAIKey).trace, b.1 = []) ∧
    execCalls (ProcessQuery lib env db query openAIKey).trace = [] ∧
    (ProcessQuery lib env db query openAIKey).db = db := by
  by_cases hne : feed.Entries = []
  · rw [ProcessQuery_empty lib env db query openAIKey data feed hget hxml hne]
    exact ⟨rfl, by intro b hb; simp [saveCalls] at hb, rfl, rfl⟩
  · have hnone : unknownEntries db.ids 0 feed.Entries = [] :=
      unknownEntries_eq_nil db.ids 0 feed.Entries hknown
    have hret : ∀ p ∈ unknownEntries db.ids 0 feed.Entries,
        (enrichment lib env openAIKey p).returns = true := by
      intro p hp
      rw [hnone] at hp
      exact absurd hp (List.not_mem_nil p)
    have hun : unknownEntries (existingOf db (feed.Entries.map Entry.ID)) 0 feed.Entries = [] := by
      rw [unknownEntries_existingOf]
      exact hnone
    have hcalled : (spawn lib env openAIKey (existingOf db (feed.Entries.map Entry.ID)) 0
        feed.Entries).filter Goroutine.called = [] := by
      have := spawn_called lib env openAIKey (existingOf db (feed.Entries.map Entry.ID)) 0
        feed.Entries
      rw [hun] at this
      exact List.map_eq_nil_iff.1 this
    have hcollect : collect env (spawn lib env openAIKey (existingOf db (feed.Entries.map Entry.ID))
        0 feed.Entries) = [] := by
      unfold collect
      rw [spawn_sent, hun]
      exact schedule_nil _
    rw [lookup_ok_gptCalls lib env db query openAIKey data feed hget hxml hne hq,
      reached_saveCalls lib env db query openAIKey data feed hget hxml hne hq hret,
      reached_execCalls lib env db query openAIKey data feed hget hxml hne hq hret,
      reached_db lib env db query openAIKey data feed hget hxml hne hq hret,
      hcalled, hcollect, SaveToDatabaseBatch_nil, schedule_nil]
    exact ⟨rfl, by intro b hb; simp at hb; rw [hb], rfl, rfl⟩

/-- After a run in which every enrichment call succeeded and the save returned
no error, every feed id is stored. -/
theorem all_stored_after_run (lib : Lib) (env : QueryEnv) (db : DB) (query : Query)
    (openAIKey data : String) (feed : Feed)
    (hget : env.httpGet (ConstructArxivAPIURL query.Query) = .ok data)
    (hxml : lib.xmlUnmarshal data = .ok feed) (hq : env.queryFault = none)
    (hgpt : ∀ p ∈ unknownEntries db.ids 0 feed.Entries,
      (enrichment lib env openAIKey p).isOk = true)
    (hsave : (ProcessQuery lib env db query openAIKey).saveErr = none) :
    ∀ e ∈ feed.Entries, e.ID ∈ (ProcessQuery lib env db query openAIKey).db.ids := by
  intro e he
  have hne : feed.Entries ≠ [] := List.ne_nil_of_mem he
  have hret : ∀ p ∈ unknownEntries db.ids 0 feed.Entries,
      (enrichment lib env openAIKey p).returns = true :=
    fun p hp => returns_of_isOk _ (hgpt p hp)
  rw [reached_saveErr lib env db query openAIKey data feed hget hxml hne hq hret] at hsave
  rw [reached_db lib env db query openAIKey data feed hget hxml hne hq hret]
  have hpapers := SaveToDatabaseBatch_ok lib db env.execFault _ query.ID hsave
  unfold DB.ids
  rw [hpapers, List.map_append, ids_map_entryRow, List.mem_append]
  by_cases hst : e.ID ∈ db.ids
  · exact Or.inl hst
  · right
    obtain ⟨i, hi⟩ : ∃ i, (i, e) ∈ feed.Entries.enumFrom 0 := by
      obtain ⟨n, hn, hget⟩ := List.getElem_of_mem he
      exact ⟨n, by
        rw [List.mk_mem_enumFrom_iff_le_and_getElem?_sub]
        simp [List.getElem?_eq_getElem hn, hget]⟩
    have hun : (i, e) ∈ unknownEntries db.ids 0 feed.Entries := by
      unfold unknownEntries
      rw [List.mem_filter]
      exact ⟨hi, by simpa using hst⟩
    have hok := hgpt (i, e) hun
    have hsome : ∃ e2, enriched lib env openAIKey (i, e) = some e2 := by
      unfold enriched
      cases hg : enrichment lib env openAIKey (i, e) with
      | error err => simp [hg, GPTOutcome.isOk] at hok
      | panic => simp [hg, GPTOutcome.isOk] at hok
      | ok r => exact ⟨_, rfl⟩
    obtain ⟨e2, he2⟩ := hsome
    have hmem : e2 ∈ (unknownEntries db.ids 0 feed.Entries).filterMap (enriched lib env openAIKey) :=
      List.mem_filterMap.2 ⟨(i, e), hun, he2⟩
    have hperm : (collect env (spawn lib env openAIKey (existingOf db (feed.Entries.map Entry.ID)) 0
        feed.Entries)).Perm
        ((unknownEntries db.ids 0 feed.Entries).filterMap (enriched lib env openAIKey)) := by
      unfold collect
      rw [← unknownEntries_existingOf, ← spawn_sent]
      exact schedule_perm _ _
    have := hperm.symm.subset hmem
    rw [← enriched_ID lib env openAIKey (i, e) e2 he2]
    exact List.mem_map_of_mem _ this

/-! ## Running a query twice -/

/-- C3 (as the code has it). Two runs of `ProcessQuery` in a row on the same
feed, both with an answering lookup: if in the first run every enrichment call
succeeds and `SaveToDatabaseBatch` returns no error, then in the second run no
feed entry has an id absent from storage, no enrichment call is made, every
batch handed to `SaveToDatabaseBatch` is empty, no statement is sent and
storage stays as the first run left it. -/
theorem second_run_persists_nothing (lib : Lib) (env1 env2 : QueryEnv) (db : DB) (query : Query)
    (openAIKey data1 data2 : String) (feed : Feed)
    (hget1 : env1.httpGet (ConstructArxivAPIURL query.Query) = .ok data1)
    (hxml1 : lib.xmlUnmarshal data1 = .ok feed) (hq1 : env1.queryFault = none)
    (hget2 : env2.httpGet (ConstructArxivAPIURL query.Query) = .ok data2)
    (hxml2 : lib.xmlUnmarshal data2 = .ok feed) (hq2 : env2.queryFault = none)
    (hgpt : ∀ p ∈ unknownEntries db.ids 0 feed.Entries,
      (enrichment lib env1 openAIKey p).isOk = true)
    (hsave : (ProcessQuery lib env1 db query openAIKey).saveErr = none) :
    unknownEntries (ProcessQuery lib env1 db query openAIKey).db.ids 0 feed.Entries = [] ∧
    gptCalls (ProcessQuery lib env2 (ProcessQuery lib env1 db query openAIKey).db query
      openAIKey).trace = [] ∧
    (∀ b ∈ saveCalls (ProcessQuery lib env2 (ProcessQuery lib env1 db query openAIKey).db query
      openAIKey).trace, b.1 = []) ∧
    execCalls (ProcessQuery lib env2 (ProcessQuery lib env1 db query openAIKey).db query
      openAIKey).trace = [] ∧
    (ProcessQuery lib env2 (ProcessQuery lib env1 db query openAIKey).db query openAIKey).db =
      (ProcessQuery lib env1 db query openAIKey).db := by
  have hall := all_stored_after_run lib env1 db query openAIKey data1 feed hget1 hxml1 hq1 hgpt hsave
  exact ⟨unknownEntries_eq_nil _ 0 feed.Entries hall,
    ProcessQuery_all_known lib env2 _ query openAIKey data2 feed hget2 hxml2 hq2 hall⟩

set_option maxRecDepth 100000 in
/-- Witness for C3: feed `A, B, C` with `B` stored, run twice. -/
theorem second_run_persists_nothing_witness :
    (ProcessQuery Sample.lib (Sample.env "A,B,C" none true) (Sample.stored ["B"])
      ⟨"q1", "transformers"⟩ "key").saveErr = none ∧
    (ProcessQuery Sample.lib (Sample.env "A,B,C" none true) (Sample.stored ["B"])
      ⟨"q1", "transformers"⟩ "key").db.ids = ["B", "C", "A"] ∧
    gptCalls (ProcessQuery Sample.lib (Sample.env "A,B,C" none false)
      (ProcessQuery Sample.lib (Sample.env "A,B,C" none true) (Sample.stored ["B"])
        ⟨"q1", "transformers"⟩ "key").db ⟨"q1", "transformers"⟩ "key").trace = [] :=
  ⟨by decide, by decide,
    (second_run_persists_nothing Sample.lib (Sample.env "A,B,C" none true)
      (Sample.env "A,B,C" none false) (Sample.stored ["B"]) ⟨"q1", "transformers"⟩ "key"
      "A,B,C" "A,B,C" ⟨[Sample.entry "A", Sample.entry "B", Sample.entry "C"]⟩
      rfl rfl rfl rfl rfl rfl (by decide) (by decide)).2.1⟩

set_option maxRecDepth 100000 in
/-- C3 fails as stated: when the enrichment call of the only feed entry fails in
the first run, the first run persists nothing, and the second run on the same
feed finds the entry absent from storage, enriches it and persists it. The same
happens when the insert of the first run fails. -/
theorem second_run_enriches_dropped_entry :
    (ProcessQuery Sample.lib (Sample.env "A" none false) (Sample.stored [])
      ⟨"q1", "transformers"⟩ "key").db.ids = [] ∧
    gptCalls (ProcessQuery Sample.lib (Sample.env "A" none true)
      (ProcessQuery Sample.lib (Sample.env "A" none false) (Sample.stored [])
        ⟨"q1", "transformers"⟩ "key").db ⟨"q1", "transformers"⟩ "key").trace = [0] ∧
    (ProcessQuery Sample.lib (Sample.env "A" none true)
      (ProcessQuery Sample.lib (Sample.env "A" none false) (Sample.stored [])
        ⟨"q1", "transformers"⟩ "key").db ⟨"q1", "transformers"⟩ "key").db.ids = ["A"] ∧
    (ProcessQuery Sample.lib { Sample.env "A" none true with execFault := some "disk full" }
      (Sample.stored []) ⟨"q1", "transformers"⟩ "key").db.ids = [] ∧
    gptCalls (ProcessQuery Sample.lib (Sample.env "A" none true)
      (ProcessQuery Sample.lib { Sample.env "A" none true with execFault := some "disk full" }
        (Sample.stored []) ⟨"q1", "transformers"⟩ "key").db ⟨"q1", "transformers"⟩
      "key").trace = [0] := by
  decide

/-! ## Atomic insert and the tag columns -/

theorem mem_of_GetExistingPaperIDs (lib : Lib) (db : DB) (fault : Option String)
    (paperIDs : List String) (m : IDSet)
    (h : (GetExistingPaperIDs lib db fault paperIDs).1 = .ok m) :
    ∀ id ∈ m, id ∈ paperIDs ∧ id ∈ db.ids := by
  cases fault with
  | some err =>
    rw [GetExistingPaperIDs_some] at h
    exact absurd h (by simp)
  | none =>
    rw [GetExistingPaperIDs_none] at h
    simp only [Except.ok.injEq] at h
    subst h
    intro id hid
    exact (mem_existingOf db paperIDs id).1 hid

/-- C7. `SaveToDatabaseBatch` with a non-empty batch sends a single insert
statement covering all entries (one group of eleven placeholders and eleven
arguments per entry, in entry order). When it returns no error, a row for every
entry of the batch has been added to storage; when it returns an error, storage
is exactly what it was before, so an entry of the batch that was not stored
before is not returned by any later `GetExistingPaperIDs`. -/
theorem SaveToDatabaseBatch_atomic (lib : Lib) (db : DB) (fault : Option String)
    (entries : List Entry) (queryID : String) (hne : entries ≠ []) :
    (SaveToDatabaseBatch lib db fault entries queryID).stmts =
      [Event.dbExec
        (insertHeader ++ stringsJoin (List.replicate entries.length insertGroup) ",")
        (entries.flatMap (entryValues lib queryID))] ∧
    countPlaceholders
      (insertHeader ++ stringsJoin (List.replicate entries.length insertGroup) ",") =
      11 * entries.length ∧
    (∀ e ∈ entries, (entryValues lib queryID e).length = 11) ∧
    ((SaveToDatabaseBatch lib db fault entries queryID).err = none →
      (SaveToDatabaseBatch lib db fault entries queryID).db.papers =
        db.papers ++ entries.map (entryRow lib queryID) ∧
      ∀ e ∈ entries, e.ID ∈ (SaveToDatabaseBatch lib db fault entries queryID).db.ids) ∧
    ((SaveToDatabaseBatch lib db fault entries queryID).err ≠ none →
      (SaveToDatabaseBatch lib db fault entries queryID).db = db ∧
      ∀ e ∈ entries, e.ID ∉ db.ids →
        ∀ (fault2 : Option String) (paperIDs : List String) (m : IDSet),
          (GetExistingPaperIDs lib (SaveToDatabaseBatch lib db fault entries queryID).db fault2
            paperIDs).1 = .ok m → e.ID ∉ m) := by
  cases entries with
  | nil => exact absurd rfl hne
  | cons e rest =>
    refine ⟨?_, ?_, fun _ _ => rfl, ?_, ?_⟩
    · rw [SaveToDatabaseBatch_stmts]
      rfl
    · exact countPlaceholders_insertText rest.length
    · intro hok
      have hp := SaveToDatabaseBatch_ok lib db fault (e :: rest) queryID hok
      refine ⟨hp, fun x hx => ?_⟩
      unfold DB.ids
      rw [hp, List.map_append, ids_map_entryRow, List.mem_append]
      exact Or.inr (List.mem_map_of_mem _ hx)
    · intro herr
      have hdb := SaveToDatabaseBatch_err lib db fault (e :: rest) queryID herr
      refine ⟨hdb, fun x _ hx fault2 paperIDs m hm hmem => ?_⟩
      rw [hdb] at hm
      exact hx (mem_of_GetExistingPaperIDs lib db fault2 paperIDs m hm x.ID hmem).2

set_option maxRecDepth 100000 in
/-- Witness for C7: a batch that collides with a stored key is rejected as a
whole. -/
theorem SaveToDatabaseBatch_atomic_witness :
    [Sample.entry "A", Sample.entry "B"] ≠ [] ∧
    (SaveToDatabaseBatch Sample.lib (Sample.stored ["B"]) none
      [Sample.entry "A", Sample.entry "B"] "q1").err ≠ none ∧
    (SaveToDatabaseBatch Sample.lib (Sample.stored ["B"]) none
      [Sample.entry "A", Sample.entry "B"] "q1").db = Sample.stored ["B"] :=
  ⟨by decide, by decide,
    ((SaveToDatabaseBatch_atomic Sample.lib (Sample.stored ["B"]) none
      [Sample.entry "A", Sample.entry "B"] "q1" (by decide)).2.2.2.2 (by decide)).1⟩

/-- C10 fails on the code: an entry saved with the tags `a` and `b` is stored
with the tag text `a, b`, and `FetchEntries` reads it back with the tags `a`
and ` b`; the second tag has gained a leading space. -/
theorem tags_roundtrip_adds_space (lib : Lib) (e : Entry) (queryID : String) :
    (SaveToDatabaseBatch lib ⟨[]⟩ none [{ e with GPTTags := ["a", "b"] }] queryID).db.papers.map
      Row.gpt_tags = ["a, b"] ∧
    (FetchEntries lib
      (SaveToDatabaseBatch lib ⟨[]⟩ none [{ e with GPTTags := ["a", "b"] }] queryID).db none).map
      (fun es => es.map Entry.GPTTags) = .ok [["a", " b"]] := by
  have hf : freshKeys (DB.ids ⟨[]⟩) (([{ e with GPTTags := ["a", "b"] }] : List Entry).map Entry.ID)
      = true := by
    simp [freshKeys, DB.ids]
  rw [SaveToDatabaseBatch_fresh lib ⟨[]⟩ _ [] queryID hf]
  have hjoin : stringsJoin ["a", "b"] ", " = "a, b" := by decide
  have hsplit : stringsSplit "a, b" ',' = ["a", " b"] := by decide
  simp [FetchEntries, DB.QueryAll, scanEntry, entryRow, Except.map, hjoin, hsplit]

end ArxivExplorer
